import Mathlib

/-!
# Formal model of the tterm PTY daemon core

A shallow embedding, in Lean 4, of the session multiplexer of the
`diohpix/tterm` repository: the PTY session state (`src/session/pty_session.rs`),
the session registry (`src/session/manager.rs`), the framed IPC codec
(`src/ipc/messages.rs`) and the per-connection dispatcher of the daemon binary
(`src/bin/tterm-daemon.rs`).

Modelling conventions:
* Machine integers are `Nat`, with explicit `% 2^w` where the source truncates.
* `Uuid` is a natural number below `2^128`.
* `SystemTime` instants are naturals counting nanoseconds since the epoch;
  `Duration::as_secs` becomes division by `10^9`.
* Rust `HashMap`s become association lists whose insert replaces the old
  entry of the key; counting and lookup are order-independent.
* Byte strings are `List Nat`; textual data is a list of Unicode scalar
  codepoints (`Str`), with UTF-8 encoding and decoding modelled explicitly.
* The `serde_json` encoding of the message enums is modelled by an explicit
  JSON value type, a renderer producing the compact text serde_json emits
  (externally tagged enums, struct fields in declaration order, hyphenated
  lowercase UUID strings, `SystemTime` as the `secs_since_epoch` /
  `nanos_since_epoch` object), and a recursive-descent parser; field lookup
  in objects is by key, as in serde's derived deserializers.
* PTY file descriptors, channel queues, threads and the child process are not
  modelled; only the state the claims speak about (attached client sets,
  timestamps, registry and binding maps, replies on the wire) is kept.
  Error message texts are abstracted where no claim inspects them.
-/

/-! ## Basic types -/

/-- 128-bit universally unique identifier, as a natural number. -/
abbrev Uuid := Nat

/-- Textual data: a list of Unicode scalar codepoints. -/
abbrev Str := List Nat

/-- A Unicode scalar value: below `0x110000` and not a surrogate. -/
def ValidScalar (c : Nat) : Prop := c < 1114112 ∧ (c < 55296 ∨ 57344 ≤ c)

instance (c : Nat) : Decidable (ValidScalar c) := by unfold ValidScalar; infer_instance

/-- Every codepoint of the string is a Unicode scalar value. -/
def ValidStr (s : Str) : Prop := ∀ c ∈ s, ValidScalar c

instance (s : Str) : Decidable (ValidStr s) := List.decidableBAll _ s

/-- `SystemTime` as serialized by serde: whole seconds and the nanosecond
remainder since the Unix epoch. -/
structure TimeStamp where
  secs : Nat
  nanos : Nat
  deriving DecidableEq, Repr

/-- Convert a nanosecond instant to the serde `SystemTime` representation. -/
def timeStampOfNs (t : Nat) : TimeStamp := ⟨t / 1000000000, t % 1000000000⟩

/-! ## Message types (src/ipc/messages.rs)

The `ClientMessage`, `DaemonMessage`, `SessionInfo`, `JsonMessage` and
`ProtocolMessage` types, field for field. -/

/-- `SessionInfo` from src/ipc/messages.rs (lines 105–113). -/
structure SessionInfo where
  id : Uuid
  shell : Str
  working_directory : Option Str
  attached_clients : List Uuid
  created_at : TimeStamp
  last_activity : TimeStamp
  deriving DecidableEq, Repr

/-- `ClientMessage` from src/ipc/messages.rs (lines 25–72). -/
inductive ClientMessage where
  | RegisterClient (client_id : Uuid)
  | RegisterAndCreateSession (session_id : Uuid) (shell : Str) (working_directory : Option Str)
  | AttachToSession (session_id : Uuid) (client_id : Uuid)
  | DetachFromSession (session_id : Uuid) (client_id : Uuid)
  | SendInput (session_id : Uuid) (data : List Nat)
  | ResizeSession (session_id : Uuid) (cols : Nat) (rows : Nat)
  | ReadOutput (session_id : Uuid)
  | ListSessions
  | TerminateSession (session_id : Uuid)
  | Disconnect (client_id : Uuid)
  deriving DecidableEq, Repr

/-- `DaemonMessage` from src/ipc/messages.rs (lines 75–102). -/
inductive DaemonMessage where
  | ClientRegistered (client_id : Uuid)
  | SessionCreated (session_id : Uuid)
  | SessionOutput (session_id : Uuid) (data : List Nat)
  | SessionTerminated (session_id : Uuid)
  | SessionList (sessions : List SessionInfo)
  | Error (message : Str)
  deriving DecidableEq, Repr

/-- `JsonMessage` from src/ipc/messages.rs (lines 18–22). -/
inductive JsonMessage where
  | Client (m : ClientMessage)
  | Daemon (m : DaemonMessage)
  deriving DecidableEq, Repr

/-- `ProtocolMessage` from src/ipc/messages.rs (lines 9–15). -/
inductive ProtocolMessage where
  | Json (m : JsonMessage)
  | Bytes (data : List Nat)
  deriving DecidableEq, Repr

/-! ## PTY session state (src/session/pty_session.rs)

Only the observable state is kept: the identifying fields, the attached
client list and the two timestamps (nanoseconds since the epoch).  The PTY
handles, channels and worker tasks carry no state any claim mentions. -/

/-- The claim-relevant state of `PtySession` (src/session/pty_session.rs,
lines 10–31). -/
structure PtySession where
  id : Uuid
  shell : Str
  working_directory : Option Str
  attached_clients : List Uuid
  created_at : Nat
  last_activity : Nat
  deriving DecidableEq, Repr

namespace PtySession

/-- `PtySession::new` (lines 34–60): fresh session, both timestamps `now`,
no attached clients.  The PTY spawn itself is not part of the state. -/
def new (id : Uuid) (shell : Str) (working_directory : Option Str) (now : Nat) : PtySession :=
  { id := id, shell := shell, working_directory := working_directory,
    attached_clients := [], created_at := now, last_activity := now }

/-- `PtySession::attach_client` (lines 210–217): push the client and refresh
`last_activity` only when it is not already attached. -/
def attach_client (s : PtySession) (client_id : Uuid) (now : Nat) : PtySession :=
  if client_id ∈ s.attached_clients then s
  else { s with attached_clients := s.attached_clients ++ [client_id], last_activity := now }

/-- `PtySession::detach_client` (lines 219–224): retain the other clients and
unconditionally refresh `last_activity`. -/
def detach_client (s : PtySession) (client_id : Uuid) (now : Nat) : PtySession :=
  { s with attached_clients := s.attached_clients.filter (fun i => i ≠ client_id),
           last_activity := now }

/-- `PtySession::send_input` (lines 226–233): enqueue on the input channel and
refresh `last_activity`; the enqueue fails only when the channel is closed
(`sendOk = false`), in which case the error propagates before the refresh. -/
def send_input (s : PtySession) (sendOk : Bool) (now : Nat) : PtySession × Except String Unit :=
  if sendOk then ({ s with last_activity := now }, .ok ()) else (s, .error "send")

/-- `PtySession::read_output` (lines 235–243): drain one queued chunk if
available (`avail`), refreshing `last_activity` exactly when a chunk returns. -/
def read_output (s : PtySession) (avail : Option (List Nat)) (now : Nat) :
    PtySession × Option (List Nat) :=
  match avail with
  | some d => ({ s with last_activity := now }, some d)
  | none => (s, none)

/-- `PtySession::is_orphaned` (lines 264–266). -/
def is_orphaned (s : PtySession) : Bool := s.attached_clients.isEmpty

/-- `PtySession::should_cleanup` (lines 268–278): false when clients are
attached; otherwise `SystemTime::now().duration_since(last_activity)` must
succeed (`last_activity ≤ now`) and its whole-second count must strictly
exceed the timeout. -/
def should_cleanup (s : PtySession) (timeout_seconds : Nat) (now : Nat) : Bool :=
  if ¬ s.is_orphaned then false
  else if s.last_activity ≤ now then
    decide ((now - s.last_activity) / 1000000000 > timeout_seconds)
  else false

end PtySession

/-! ## PTY construction configuration (src/session/pty_session.rs lines 62–108)

`initialize_pty` allocates the PTY pair and builds the `CommandBuilder` for
the shell.  The model records the requested PTY size and the exact command
configuration handed to `spawn_command`. -/

/-- `portable_pty::PtySize`. -/
structure PtySize where
  rows : Nat
  cols : Nat
  pixel_width : Nat
  pixel_height : Nat
  deriving DecidableEq, Repr

/-- The observable configuration of a `portable_pty::CommandBuilder`: program,
argument list, environment overrides in application order, working directory. -/
structure CommandBuilder where
  program : Str
  args : List Str
  envs : List (Str × Str)
  cwd : Option Str
  deriving DecidableEq, Repr

/-- `CommandBuilder::new(program)`: no arguments, no environment overrides,
no working directory. -/
def CommandBuilder.new (program : Str) : CommandBuilder :=
  { program := program, args := [], envs := [], cwd := none }

/-- `CommandBuilder::cwd`. -/
def CommandBuilder.withCwd (c : CommandBuilder) (dir : Str) : CommandBuilder :=
  { c with cwd := some dir }

/-- `PtySession::initialize_pty` (lines 62–108), restricted to what it
requests of the PTY system and of the spawned command: `openpty` is called
with rows 24 / cols 80, the command is `CommandBuilder::new(&self.shell)`
with the working directory applied when `self.working_directory` is set,
and nothing else is configured on it. -/
def initialize_pty (shell : Str) (working_directory : Option Str) :
    PtySize × CommandBuilder :=
  let size : PtySize := { rows := 24, cols := 80, pixel_width := 0, pixel_height := 0 }
  let cmd := CommandBuilder.new shell
  let cmd := match working_directory with
    | some d => cmd.withCwd d
    | none => cmd
  (size, cmd)

/-! ## Session registry (src/session/manager.rs)

`SessionManager.sessions` is a `HashMap<Uuid, PtySession>`, modelled as an
association list; insertion appends a fresh key, removal filters it out. -/

/-- The session map of `SessionManager`. -/
abbrev SessionMap := List (Uuid × PtySession)

/-- `HashMap::get` on the session map. -/
def lookupSession (m : SessionMap) (sid : Uuid) : Option PtySession :=
  match m with
  | [] => none
  | (k, s) :: rest => if k = sid then some s else lookupSession rest sid

/-- `HashMap::contains_key` on the session map. -/
def containsSession (m : SessionMap) (sid : Uuid) : Bool :=
  (lookupSession m sid).isSome

/-- Apply `f` to the session stored under `sid` (the effect of mutating
through `get_mut`). -/
def updateSession (m : SessionMap) (sid : Uuid) (f : PtySession → PtySession) : SessionMap :=
  m.map (fun p => if p.1 = sid then (p.1, f p.2) else p)

/-- `HashMap::insert` of a key known to be absent. -/
def insertSession (m : SessionMap) (sid : Uuid) (s : PtySession) : SessionMap :=
  m ++ [(sid, s)]

/-- `HashMap::remove`. -/
def eraseSession (m : SessionMap) (sid : Uuid) : SessionMap :=
  m.filter (fun p => p.1 ≠ sid)

/-- The default orphan timeout of `SessionManager::new` (line 22): 300 s. -/
def orphan_timeout_seconds : Nat := 300

/-- `SessionManager::create_session` (lines 26–43): reject an existing id
before anything else; then `PtySession::new` may fail (`spawnOk = false`)
without touching the map; on success insert the fresh session. -/
def create_session (m : SessionMap) (sid : Uuid) (shell : Str)
    (working_directory : Option Str) (now : Nat) (spawnOk : Bool) :
    SessionMap × Except String Unit :=
  if containsSession m sid then (m, .error "Session already exists")
  else if spawnOk then
    (insertSession m sid (PtySession.new sid shell working_directory now), .ok ())
  else (m, .error "spawn failed")

/-- `SessionManager::terminate_session` (lines 45–54). -/
def terminate_session (m : SessionMap) (sid : Uuid) : SessionMap × Except String Unit :=
  if containsSession m sid then (eraseSession m sid, .ok ())
  else (m, .error "Session not found")

/-- `SessionManager::attach_client_to_session` (lines 56–65). -/
def attach_client_to_session (m : SessionMap) (sid : Uuid) (client_id : Uuid) (now : Nat) :
    SessionMap × Except String Unit :=
  if containsSession m sid then
    (updateSession m sid (fun s => s.attach_client client_id now), .ok ())
  else (m, .error "Session not found")

/-- `SessionManager::detach_client_from_session` (lines 67–76): succeeds for
any existing session, whether or not the client is attached. -/
def detach_client_from_session (m : SessionMap) (sid : Uuid) (client_id : Uuid) (now : Nat) :
    SessionMap × Except String Unit :=
  if containsSession m sid then
    (updateSession m sid (fun s => s.detach_client client_id now), .ok ())
  else (m, .error "Session not found")

/-- `SessionManager::send_input_to_session` (lines 78–84). -/
def send_input_to_session (m : SessionMap) (sid : Uuid) (sendOk : Bool) (now : Nat) :
    SessionMap × Except String Unit :=
  match lookupSession m sid with
  | some s =>
    let (s', r) := s.send_input sendOk now
    (updateSession m sid (fun _ => s'), r)
  | none => (m, .error "Session not found")

/-- `SessionManager::read_output_from_session` (lines 86–92). -/
def read_output_from_session (m : SessionMap) (sid : Uuid) (avail : Option (List Nat))
    (now : Nat) : SessionMap × Except String (Option (List Nat)) :=
  match lookupSession m sid with
  | some s =>
    let (s', d) := s.read_output avail now
    (updateSession m sid (fun _ => s'), .ok d)
  | none => (m, .error "Session not found")

/-- `SessionManager::resize_session` (lines 94–100): resizing touches only the
PTY handle, never the session record; it can fail (`resizeOk = false`). -/
def resize_session (m : SessionMap) (sid : Uuid) (resizeOk : Bool) :
    SessionMap × Except String Unit :=
  match lookupSession m sid with
  | some _ => (m, if resizeOk then .ok () else .error "resize failed")
  | none => (m, .error "Session not found")

/-- `SessionManager::list_sessions` (lines 102–113). -/
def list_sessions (m : SessionMap) : List SessionInfo :=
  m.map (fun p =>
    { id := p.2.id, shell := p.2.shell, working_directory := p.2.working_directory,
      attached_clients := p.2.attached_clients,
      created_at := timeStampOfNs p.2.created_at,
      last_activity := timeStampOfNs p.2.last_activity })

/-- `SessionManager::cleanup_orphaned_sessions` (lines 115–133): retain the
sessions for which `should_cleanup` is false. -/
def cleanup_orphaned_sessions (m : SessionMap) (timeout_seconds : Nat) (now : Nat) :
    SessionMap :=
  m.filter (fun p => ¬ p.2.should_cleanup timeout_seconds now)

/-! ## Daemon state and dispatcher (src/bin/tterm-daemon.rs) -/

/-- The client-to-session binding map `client_sessions` of `PtyDaemon`,
a `HashMap<Uuid, Uuid>` as an association list with unique keys. -/
abbrev BindingMap := List (Uuid × Uuid)

/-- `HashMap::get` on the binding map. -/
def lookupBinding (b : BindingMap) (c : Uuid) : Option Uuid :=
  match b with
  | [] => none
  | (k, sid) :: rest => if k = c then some sid else lookupBinding rest c

/-- `HashMap::insert` on the binding map: the previous binding of the client,
if any, is replaced. -/
def insertBinding (b : BindingMap) (c : Uuid) (sid : Uuid) : BindingMap :=
  b.filter (fun p => p.1 ≠ c) ++ [(c, sid)]

/-- `HashMap::remove` on the binding map. -/
def removeBinding (b : BindingMap) (c : Uuid) : BindingMap :=
  b.filter (fun p => p.1 ≠ c)

/-- The state of `PtyDaemon` (src/bin/tterm-daemon.rs lines 16–21).  The
`clients` map holds only the write halves of streams and is never read for
routing; it is not modelled. -/
structure PtyDaemon where
  session_manager : SessionMap
  client_sessions : BindingMap
  deriving DecidableEq, Repr

/-- `PtyDaemon::new`. -/
def PtyDaemon.initial : PtyDaemon := { session_manager := [], client_sessions := [] }

/-- Oracle for the effects the environment decides during one message:
whether the PTY spawn succeeds, whether a channel send succeeds, whether a
resize succeeds, and what output chunk (if any) is pending. -/
structure Oracle where
  spawnOk : Bool := true
  sendOk : Bool := true
  resizeOk : Bool := true
  avail : Option (List Nat) := none
  deriving Repr

/-- `PtyDaemon::handle_client_message` (src/bin/tterm-daemon.rs lines 37–167).
`client_id` is the id the connection handler generated for this connection;
note that the `AttachToSession`, `DetachFromSession` and `Disconnect` arms
shadow it with the id carried inside the message.  Returns the new daemon
state and the optional reply. -/
def handle_client_message (d : PtyDaemon) (client_id : Uuid) (msg : ClientMessage)
    (now : Nat) (o : Oracle) : PtyDaemon × Option DaemonMessage :=
  match msg with
  | .RegisterClient cid =>
    (d, some (.ClientRegistered cid))
  | .RegisterAndCreateSession session_id shell working_directory =>
    let (m', r) := create_session d.session_manager session_id shell working_directory
      now o.spawnOk
    match r with
    | .ok _ =>
      -- automatically attach the creating client (the connection id) and bind it
      let (m'', ra) := attach_client_to_session m' session_id client_id now
      match ra with
      | .ok _ =>
        ({ session_manager := m'',
           client_sessions := insertBinding d.client_sessions client_id session_id },
         some (.SessionCreated session_id))
      | .error _ =>
        ({ d with session_manager := m'' }, some (.SessionCreated session_id))
    | .error _ => (d, some (.Error []))
  | .AttachToSession session_id client_id =>
    -- the pattern shadows the connection id with the message's client_id
    let (m', r) := attach_client_to_session d.session_manager session_id client_id now
    match r with
    | .ok _ =>
      ({ session_manager := m',
         client_sessions := insertBinding d.client_sessions client_id session_id }, none)
    | .error _ => (d, some (.Error []))
  | .DetachFromSession session_id client_id =>
    let (m', r) := detach_client_from_session d.session_manager session_id client_id now
    match r with
    | .ok _ =>
      ({ session_manager := m',
         client_sessions := removeBinding d.client_sessions client_id }, none)
    | .error _ => (d, some (.Error []))
  | .SendInput session_id _ =>
    let (m', r) := send_input_to_session d.session_manager session_id o.sendOk now
    match r with
    | .ok _ => ({ d with session_manager := m' }, none)
    | .error _ => ({ d with session_manager := m' }, some (.Error []))
  | .ResizeSession session_id _ _ =>
    let (m', r) := resize_session d.session_manager session_id o.resizeOk
    match r with
    | .ok _ => ({ d with session_manager := m' }, none)
    | .error _ => ({ d with session_manager := m' }, some (.Error []))
  | .ReadOutput session_id =>
    let (m', r) := read_output_from_session d.session_manager session_id o.avail now
    match r with
    | .ok (some data) => ({ d with session_manager := m' }, some (.SessionOutput session_id data))
    | .ok none => ({ d with session_manager := m' }, none)
    | .error _ => ({ d with session_manager := m' }, some (.Error []))
  | .ListSessions =>
    (d, some (.SessionList (list_sessions d.session_manager)))
  | .TerminateSession session_id =>
    let (m', r) := terminate_session d.session_manager session_id
    match r with
    | .ok _ => ({ d with session_manager := m' }, some (.SessionTerminated session_id))
    | .error _ => ({ d with session_manager := m' }, some (.Error []))
  | .Disconnect disconnect_id =>
    -- remove the binding, then detach the client from every session listing it
    let b' := removeBinding d.client_sessions disconnect_id
    let m' := d.session_manager.map (fun p =>
      (p.1, if disconnect_id ∈ p.2.attached_clients
            then p.2.detach_client disconnect_id now else p.2))
    ({ session_manager := m', client_sessions := b' }, none)

/-- The raw-bytes arm of the connection read loop (src/bin/tterm-daemon.rs
lines 303–321): look up the binding of the connection-generated `client_id`;
if bound, forward the bytes to that session; otherwise drop the frame.
Returns the session the data was delivered to, if any. -/
def handle_raw_bytes (d : PtyDaemon) (client_id : Uuid) (sendOk : Bool) (now : Nat) :
    PtyDaemon × Option Uuid :=
  match lookupBinding d.client_sessions client_id with
  | some session_id =>
    let (m', r) := send_input_to_session d.session_manager session_id sendOk now
    match r with
    | .ok _ => ({ d with session_manager := m' }, some session_id)
    | .error _ => ({ d with session_manager := m' }, none)
  | none => (d, none)

/-- One poll of the output-push task (src/bin/tterm-daemon.rs lines 224–272):
it pushes output only for the session bound to the connection-generated
`client_id`; with no binding it sleeps and pushes nothing. -/
def output_push_poll (d : PtyDaemon) (client_id : Uuid) (avail : Option (List Nat))
    (now : Nat) : PtyDaemon × Option (List Nat) :=
  match lookupBinding d.client_sessions client_id with
  | some session_id =>
    let (m', r) := read_output_from_session d.session_manager session_id avail now
    match r with
    | .ok (some data) => ({ d with session_manager := m' }, some data)
    | _ => ({ d with session_manager := m' }, none)
  | none => (d, none)

/-- One event processed by the daemon: a control message arriving on the
connection identified by `conn`, under timestamp `now` and oracle `o`. -/
structure OpEvent where
  conn : Uuid
  msg : ClientMessage
  now : Nat
  o : Oracle

/-- State transition of one event. -/
def stepEvent (d : PtyDaemon) (e : OpEvent) : PtyDaemon :=
  (handle_client_message d e.conn e.msg e.now e.o).1

/-- The events that can create a binding for client `c`: a successful
`RegisterAndCreateSession` issued on `c`'s own connection, or an
`AttachToSession` whose message-carried client id is `c`. -/
def bindsClient (c : Uuid) (e : OpEvent) : Prop :=
  match e.msg with
  | .RegisterAndCreateSession _ _ _ => e.conn = c
  | .AttachToSession _ cid => cid = c
  | _ => False

instance (c : Uuid) (e : OpEvent) : Decidable (bindsClient c e) := by
  unfold bindsClient; cases e.msg <;> infer_instance

/-! ### Invariants relating bindings and attached sets -/

/-- The number of entries of the binding map pointing to session `sid`. -/
def bindingsTo (b : BindingMap) (sid : Uuid) : Nat :=
  (b.filter (fun p => p.2 = sid)).length

/-- The equality claimed by the specification: every registered session has
exactly as many attached clients as there are bindings pointing to it. -/
def invEq (d : PtyDaemon) : Prop :=
  ∀ p ∈ d.session_manager, (p.2.attached_clients).length = bindingsTo d.client_sessions p.1

instance (d : PtyDaemon) : Decidable (invEq d) := List.decidableBAll _ _

/-- One binding entry is sound: its target session is registered and lists
the bound client as attached. -/
def bindingOk (m : SessionMap) (p : Uuid × Uuid) : Prop :=
  match lookupSession m p.2 with
  | some s => p.1 ∈ s.attached_clients
  | none => False

instance (m : SessionMap) (p : Uuid × Uuid) : Decidable (bindingOk m p) := by
  unfold bindingOk
  cases lookupSession m p.2 <;> infer_instance

/-- The invariant the code actually maintains under the four binding-touching
operations: every binding points to a session present in the registry, and
that session lists the bound client as attached. -/
def invBind (d : PtyDaemon) : Prop :=
  ∀ p ∈ d.client_sessions, bindingOk d.session_manager p

instance (d : PtyDaemon) : Decidable (invBind d) := List.decidableBAll _ _

/-- The four operations named by the specification's invariant claim. -/
def isBindingOp (msg : ClientMessage) : Prop :=
  match msg with
  | .AttachToSession _ _ => True
  | .DetachFromSession _ _ => True
  | .RegisterAndCreateSession _ _ _ => True
  | .Disconnect _ => True
  | _ => False

instance (msg : ClientMessage) : Decidable (isBindingOp msg) := by
  unfold isBindingOp; cases msg <;> infer_instance

/-! ## Big-endian length prefix -/

/-- `(n as u32).to_be_bytes()`: the four big-endian bytes of `n mod 2^32`. -/
def toBE4 (n : Nat) : List Nat :=
  let m := n % 4294967296
  [m / 16777216 % 256, m / 65536 % 256, m / 256 % 256, m % 256]

/-- `u32::from_be_bytes` on a four-byte list (0 on malformed input). -/
def beU32 (bs : List Nat) : Nat :=
  match bs with
  | [b0, b1, b2, b3] => ((b0 * 256 + b1) * 256 + b2) * 256 + b3
  | _ => 0

/-! ## UTF-8 (the `str::from_utf8` / `String::as_bytes` boundary)

The JSON payload travels as UTF-8 bytes; the model encodes and decodes
explicitly between codepoint lists and byte lists. -/

/-- UTF-8 encoding of one Unicode scalar value. -/
def utf8EncodeChar (c : Nat) : List Nat :=
  if c < 128 then [c]
  else if c < 2048 then [192 + c / 64, 128 + c % 64]
  else if c < 65536 then [224 + c / 4096, 128 + c / 64 % 64, 128 + c % 64]
  else [240 + c / 262144, 128 + c / 4096 % 64, 128 + c / 64 % 64, 128 + c % 64]

/-- UTF-8 encoding of a codepoint list. -/
def utf8Encode : Str → List Nat
  | [] => []
  | c :: cs => utf8EncodeChar c ++ utf8Encode cs

/-- Decode one UTF-8 sequence from the front of a byte list, rejecting
overlong forms, surrogates and out-of-range values as `str::from_utf8` does
(the bytes are consumed one at a time). -/
def utf8DecodeChar (bs : List Nat) : Option (Nat × List Nat) :=
  match bs with
  | [] => none
  | b0 :: r1 =>
    if b0 < 128 then some (b0, r1)
    else if b0 < 192 then none
    else if b0 < 224 then
      match r1 with
      | [] => none
      | b1 :: r2 =>
        if 128 ≤ b1 ∧ b1 < 192 then
          if 128 ≤ (b0 - 192) * 64 + (b1 - 128) then some ((b0 - 192) * 64 + (b1 - 128), r2)
          else none
        else none
    else if b0 < 240 then
      match r1 with
      | [] => none
      | b1 :: r2 =>
        match r2 with
        | [] => none
        | b2 :: r3 =>
          if (128 ≤ b1 ∧ b1 < 192) ∧ (128 ≤ b2 ∧ b2 < 192) then
            if 2048 ≤ ((b0 - 224) * 64 + (b1 - 128)) * 64 + (b2 - 128) ∧
                (((b0 - 224) * 64 + (b1 - 128)) * 64 + (b2 - 128) < 55296 ∨
                 57344 ≤ ((b0 - 224) * 64 + (b1 - 128)) * 64 + (b2 - 128)) then
              some (((b0 - 224) * 64 + (b1 - 128)) * 64 + (b2 - 128), r3)
            else none
          else none
    else if b0 < 248 then
      match r1 with
      | [] => none
      | b1 :: r2 =>
        match r2 with
        | [] => none
        | b2 :: r3 =>
          match r3 with
          | [] => none
          | b3 :: r4 =>
            if (128 ≤ b1 ∧ b1 < 192) ∧ (128 ≤ b2 ∧ b2 < 192) ∧ (128 ≤ b3 ∧ b3 < 192) then
              if 65536 ≤ (((b0 - 240) * 64 + (b1 - 128)) * 64 + (b2 - 128)) * 64 + (b3 - 128) ∧
                  (((b0 - 240) * 64 + (b1 - 128)) * 64 + (b2 - 128)) * 64 + (b3 - 128) <
                    1114112 then
                some ((((b0 - 240) * 64 + (b1 - 128)) * 64 + (b2 - 128)) * 64 + (b3 - 128), r4)
              else none
            else none
    else none

/-- Decode a whole byte list to codepoints (`fuel` bounds the recursion;
each step consumes at least one byte). -/
def utf8DecodeAux (fuel : Nat) (bs : List Nat) : Option Str :=
  match fuel with
  | 0 => match bs with | [] => some [] | _ => none
  | fuel + 1 =>
    match bs with
    | [] => some []
    | _ =>
      match utf8DecodeChar bs with
      | some (c, rest) =>
        match utf8DecodeAux fuel rest with
        | some cs => some (c :: cs)
        | none => none
      | none => none

/-- `str::from_utf8`: decode an entire byte list to codepoints. -/
def utf8Decode (bs : List Nat) : Option Str := utf8DecodeAux bs.length bs

/-! ## JSON values and the serde_json compact text

Character codes used below: `"` 34, `,` 44, `-` 45, `/` 47, digits 48–57,
`:` 58, `[` 91, `\` 92, `]` 93, left brace 123, right brace 125. -/

/-- JSON values as serde_json produces them for these message types
(booleans never occur; all numbers are unsigned integers). -/
inductive Json where
  | null
  | str (s : Str)
  | num (n : Nat)
  | arr (elems : List Json)
  | obj (members : List (Str × Json))

/-- Lowercase hexadecimal digit character of `d < 16`. -/
def hexDigit (d : Nat) : Nat := if d < 10 then 48 + d else 87 + d

/-- Value of a hexadecimal digit character (serde_json accepts both cases). -/
def hexVal (c : Nat) : Option Nat :=
  if 48 ≤ c ∧ c ≤ 57 then some (c - 48)
  else if 97 ≤ c ∧ c ≤ 102 then some (c - 87)
  else if 65 ≤ c ∧ c ≤ 70 then some (c - 55)
  else none

/-- serde_json's escaping of one codepoint inside a JSON string: the double
quote and backslash get two-character escapes, the five control characters
BS/TAB/LF/FF/CR get their short escapes, other control characters become
`\u00XX` with lowercase hex, and everything else is emitted verbatim. -/
def escapeChar (c : Nat) : List Nat :=
  if c = 34 then [92, 34]
  else if c = 92 then [92, 92]
  else if c = 8 then [92, 98]
  else if c = 9 then [92, 116]
  else if c = 10 then [92, 110]
  else if c = 12 then [92, 102]
  else if c = 13 then [92, 114]
  else if c < 32 then [92, 117, 48, 48, hexDigit (c / 16), hexDigit (c % 16)]
  else [c]

/-- Escape a whole string body. -/
def escapeStr : Str → List Nat
  | [] => []
  | c :: cs => escapeChar c ++ escapeStr cs

/-- A rendered JSON string: quote, escaped body, quote. -/
def renderStr (s : Str) : List Nat := 34 :: (escapeStr s ++ [34])

/-- Decimal digit characters of `n`, most significant first. -/
def natDigits (n : Nat) : List Nat :=
  if h : n < 10 then [48 + n]
  else natDigits (n / 10) ++ [48 + n % 10]
  decreasing_by exact Nat.div_lt_self (by omega) (by omega)

mutual

/-- Compact rendering of a JSON value, exactly as `serde_json::to_string`
prints it: no whitespace, members in order. -/
def renderVal : Json → List Nat
  | .null => [110, 117, 108, 108]
  | .str s => renderStr s
  | .num n => natDigits n
  | .arr [] => [91, 93]
  | .arr (v :: vs) => 91 :: (renderElems v vs ++ [93])
  | .obj [] => [123, 125]
  | .obj (kv :: kvs) => 123 :: (renderMembers kv kvs ++ [125])
  termination_by v => sizeOf v

/-- Comma-separated rendering of array elements. -/
def renderElems : Json → List Json → List Nat
  | v, [] => renderVal v
  | v, w :: ws => renderVal v ++ 44 :: renderElems w ws
  termination_by v vs => 1 + sizeOf v + sizeOf vs

/-- Comma-separated rendering of object members (`"key":value`). -/
def renderMembers : (Str × Json) → List (Str × Json) → List Nat
  | (k, v), [] => renderStr k ++ 58 :: renderVal v
  | (k, v), kv2 :: kvs => renderStr k ++ 58 :: renderVal v ++ 44 :: renderMembers kv2 kvs
  termination_by kv kvs => 1 + sizeOf kv + sizeOf kvs

end

/-- One escape character after a backslash (other than `u`). -/
def unescape (e : Nat) : Option Nat :=
  if e = 34 then some 34
  else if e = 92 then some 92
  else if e = 47 then some 47
  else if e = 98 then some 8
  else if e = 116 then some 9
  else if e = 110 then some 10
  else if e = 102 then some 12
  else if e = 114 then some 13
  else none

/-- Parse a JSON string body up to the closing quote, undoing the escapes;
unescaped control characters and lone surrogate escapes are rejected, as in
serde_json. -/
def parseStrBody : List Nat → Option (Str × List Nat)
  | [] => none
  | c :: r =>
    if c = 34 then some ([], r)
    else if c = 92 then
      match r with
      | [] => none
      | e :: r2 =>
        if e = 117 then
          match r2 with
          | h1 :: h2 :: h3 :: h4 :: r3 =>
            match hexVal h1, hexVal h2, hexVal h3, hexVal h4 with
            | some d1, some d2, some d3, some d4 =>
              let u := ((d1 * 16 + d2) * 16 + d3) * 16 + d4
              if 55296 ≤ u ∧ u < 57344 then none
              else
                match parseStrBody r3 with
                | some (s, r4) => some (u :: s, r4)
                | none => none
            | _, _, _, _ => none
          | _ => none
        else
          match unescape e with
          | some u =>
            match parseStrBody r2 with
            | some (s, r3) => some (u :: s, r3)
            | none => none
          | none => none
    else if c < 32 then none
    else
      match parseStrBody r with
      | some (s, r2) => some (c :: s, r2)
      | none => none

/-- Accumulate decimal digits from the front of the input. -/
def parseNumAux (acc : Nat) : List Nat → Nat × List Nat
  | [] => (acc, [])
  | c :: r =>
    if 48 ≤ c ∧ c ≤ 57 then parseNumAux (acc * 10 + (c - 48)) r
    else (acc, c :: r)

mutual

/-- Recursive-descent parser for one JSON value (`fuel` bounds the nesting
and sequencing depth). -/
def parseVal : Nat → List Nat → Option (Json × List Nat)
  | 0, _ => none
  | fuel + 1, input =>
    match input with
    | [] => none
    | c :: r =>
      if c = 110 then
        match r with
        | [] => none
        | c1 :: rr1 =>
          match rr1 with
          | [] => none
          | c2 :: rr2 =>
            match rr2 with
            | [] => none
            | c3 :: r2 =>
              if c1 = 117 ∧ c2 = 108 ∧ c3 = 108 then some (.null, r2) else none
      else if c = 34 then
        match parseStrBody r with
        | some (s, r2) => some (.str s, r2)
        | none => none
      else if c = 91 then
        match r with
        | [] => none
        | rh :: rt =>
          if rh = 93 then some (.arr [], rt)
          else
            match parseElems fuel (rh :: rt) with
            | some (vs, r2) => some (.arr vs, r2)
            | none => none
      else if c = 123 then
        match r with
        | [] => none
        | rh :: rt =>
          if rh = 125 then some (.obj [], rt)
          else
            match parseMembers fuel (rh :: rt) with
            | some (kvs, r2) => some (.obj kvs, r2)
            | none => none
      else if 48 ≤ c ∧ c ≤ 57 then
        let p := parseNumAux (c - 48) r
        some (.num p.1, p.2)
      else none

/-- Parse the elements of a non-empty array, starting after `[`. -/
def parseElems : Nat → List Nat → Option (List Json × List Nat)
  | 0, _ => none
  | fuel + 1, input =>
    match parseVal fuel input with
    | none => none
    | some (v, r) =>
      match r with
      | [] => none
      | rh :: rt =>
        if rh = 44 then
          match parseElems fuel rt with
          | some (vs, r2) => some (v :: vs, r2)
          | none => none
        else if rh = 93 then some ([v], rt)
        else none

/-- Parse the members of a non-empty object, starting after the opening
brace. -/
def parseMembers : Nat → List Nat → Option (List (Str × Json) × List Nat)
  | 0, _ => none
  | fuel + 1, input =>
    match input with
    | [] => none
    | c :: r =>
      if c = 34 then
        match parseStrBody r with
        | none => none
        | some (k, r1) =>
          match r1 with
          | [] => none
          | c1 :: r2 =>
            if c1 = 58 then
              match parseVal fuel r2 with
              | none => none
              | some (v, r3) =>
                match r3 with
                | [] => none
                | c2 :: r4 =>
                  if c2 = 44 then
                    match parseMembers fuel r4 with
                    | some (kvs, r5) => some ((k, v) :: kvs, r5)
                    | none => none
                  else if c2 = 125 then some ([(k, v)], r4)
                  else none
            else none
      else none

end

/-! Fuel sufficient for `parseVal` on the rendering of a value. -/

mutual

/-- Parser fuel needed for one value. -/
def fuelVal : Json → Nat
  | .null => 1
  | .str _ => 1
  | .num _ => 1
  | .arr [] => 1
  | .arr (v :: vs) => 1 + fuelElems v vs
  | .obj [] => 1
  | .obj (kv :: kvs) => 1 + fuelMembers kv kvs
  termination_by v => sizeOf v

/-- Parser fuel needed for a non-empty element list. -/
def fuelElems : Json → List Json → Nat
  | v, [] => 1 + fuelVal v
  | v, w :: ws => 1 + fuelVal v + fuelElems w ws
  termination_by v vs => 1 + sizeOf v + sizeOf vs

/-- Parser fuel needed for a non-empty member list. -/
def fuelMembers : (Str × Json) → List (Str × Json) → Nat
  | (_, v), [] => 1 + fuelVal v
  | (_, v), kv2 :: kvs => 1 + fuelVal v + fuelMembers kv2 kvs
  termination_by kv kvs => 1 + sizeOf kv + sizeOf kvs

end

/-! All string codepoints (keys and values) of a JSON value being Unicode
scalars makes its rendering UTF-8 encodable. -/

mutual

/-- Every string codepoint in the value is a Unicode scalar. -/
def wfVal : Json → Prop
  | .null => True
  | .str s => ValidStr s
  | .num _ => True
  | .arr [] => True
  | .arr (v :: vs) => wfElems v vs
  | .obj [] => True
  | .obj (kv :: kvs) => wfMembers kv kvs
  termination_by v => sizeOf v

/-- Scalar-validity for a non-empty element list. -/
def wfElems : Json → List Json → Prop
  | v, [] => wfVal v
  | v, w :: ws => wfVal v ∧ wfElems w ws
  termination_by v vs => 1 + sizeOf v + sizeOf vs

/-- Scalar-validity for a non-empty member list. -/
def wfMembers : (Str × Json) → List (Str × Json) → Prop
  | (k, v), [] => ValidStr k ∧ wfVal v
  | (k, v), kv2 :: kvs => (ValidStr k ∧ wfVal v) ∧ wfMembers kv2 kvs
  termination_by kv kvs => 1 + sizeOf kv + sizeOf kvs

end

/-! ## Hexadecimal digits and UUID strings

The `uuid` crate serializes a `Uuid` as the hyphenated lowercase hex string
`xxxxxxxx-xxxx-xxxx-xxxx-xxxxxxxxxxxx` and parses it back. -/

/-- The `w` hex digit characters of `n < 16^w`, most significant first. -/
def toHexFixed : Nat → Nat → List Nat
  | 0, _ => []
  | w + 1, n => toHexFixed w (n / 16) ++ [hexDigit (n % 16)]

/-- Accumulate hex digit characters into a value; fails on a non-hex
character. -/
def parseHexDigits (acc : Nat) : List Nat → Option Nat
  | [] => some acc
  | c :: r =>
    match hexVal c with
    | some d => parseHexDigits (acc * 16 + d) r
    | none => none

/-- The hyphenated lowercase hex rendering of a 128-bit UUID. -/
def uuidToStr (u : Uuid) : Str :=
  let h := toHexFixed 32 u
  h.take 8 ++ 45 :: ((h.drop 8).take 4 ++ 45 :: (((h.drop 8).drop 4).take 4 ++
    45 :: ((((h.drop 8).drop 4).drop 4).take 4 ++ 45 :: (((h.drop 8).drop 4).drop 4).drop 4)))

/-- Parse a hyphenated UUID string (8-4-4-4-12 hex digits). -/
def uuidFromStr (s : Str) : Option Uuid :=
  let g1 := s.take 8
  match s.drop 8 with
  | 45 :: t1 =>
    let g2 := t1.take 4
    match t1.drop 4 with
    | 45 :: t2 =>
      let g3 := t2.take 4
      match t2.drop 4 with
      | 45 :: t3 =>
        let g4 := t3.take 4
        match t3.drop 4 with
        | 45 :: t4 =>
          if g1.length = 8 ∧ g2.length = 4 ∧ g3.length = 4 ∧ g4.length = 4 ∧ t4.length = 12 then
            parseHexDigits 0 (g1 ++ (g2 ++ (g3 ++ (g4 ++ t4))))
          else none
        | _ => none
      | _ => none
    | _ => none
  | _ => none

/-! ## JSON views of the message field types (the derived serde impls) -/

/-- Field lookup in a JSON object by key, as serde's derived deserializers
do (order-independent). -/
def getField : List (Str × Json) → Str → Option Json
  | [], _ => none
  | (k, v) :: rest, key => if k = key then some v else getField rest key

/-- Deserialize a JSON string. -/
def asStr : Json → Option Str
  | .str s => some s
  | _ => none

/-- Deserialize an unsigned integer below `bound` (serde rejects overflow). -/
def asNum (bound : Nat) : Json → Option Nat
  | .num n => if n < bound then some n else none
  | _ => none

/-- Deserialize a `Uuid` from its hyphenated string form. -/
def asUuid (j : Json) : Option Uuid :=
  match asStr j with
  | some s => uuidFromStr s
  | none => none

/-- Deserialize an `Option<String>`. -/
def asOptStr : Json → Option (Option Str)
  | .null => some none
  | .str s => some (some s)
  | _ => none

/-- Deserialize a `Vec<u8>` element list. -/
def asByteList : List Json → Option (List Nat)
  | [] => some []
  | .num n :: rest =>
    if n < 256 then
      match asByteList rest with
      | some bs => some (n :: bs)
      | none => none
    else none
  | _ => none

/-- Deserialize a `Vec<u8>`. -/
def asBytes : Json → Option (List Nat)
  | .arr xs => asByteList xs
  | _ => none

/-- Deserialize a `Vec<Uuid>` element list. -/
def asUuidList : List Json → Option (List Uuid)
  | [] => some []
  | j :: rest =>
    match asUuid j with
    | some u =>
      match asUuidList rest with
      | some us => some (u :: us)
      | none => none
    | none => none

def k_secs_since_epoch : Str := [115, 101, 99, 115, 95, 115, 105, 110, 99, 101, 95, 101, 112, 111, 99, 104]
def k_nanos_since_epoch : Str := [110, 97, 110, 111, 115, 95, 115, 105, 110, 99, 101, 95, 101, 112, 111, 99, 104]

/-- Deserialize a serde `SystemTime` object. -/
def asTime (j : Json) : Option TimeStamp :=
  match j with
  | .obj kvs =>
    match getField kvs k_secs_since_epoch with
    | some js =>
      match asNum (2 ^ 64) js with
      | some s =>
        match getField kvs k_nanos_since_epoch with
        | some jn =>
          match asNum (2 ^ 32) jn with
          | some ns => some ⟨s, ns⟩
          | none => none
        | none => none
      | none => none
    | none => none
  | _ => none

/-- Serialize a `Uuid`. -/
def uuidJson (u : Uuid) : Json := .str (uuidToStr u)

/-- Serialize a `SystemTime`. -/
def timeJson (t : TimeStamp) : Json :=
  .obj [(k_secs_since_epoch, .num t.secs), (k_nanos_since_epoch, .num t.nanos)]

/-- Serialize a `Vec<u8>`. -/
def bytesJson (data : List Nat) : Json := .arr (data.map .num)

/-- Serialize an `Option<String>`. -/
def optStrJson : Option Str → Json
  | none => .null
  | some s => .str s

/-- Serialize a `Vec<Uuid>`. -/
def uuidListJson (us : List Uuid) : Json := .arr (us.map uuidJson)

def k_id : Str := [105, 100]
def k_shell : Str := [115, 104, 101, 108, 108]
def k_working_directory : Str := [119, 111, 114, 107, 105, 110, 103, 95, 100, 105, 114, 101, 99, 116, 111, 114, 121]
def k_attached_clients : Str := [97, 116, 116, 97, 99, 104, 101, 100, 95, 99, 108, 105, 101, 110, 116, 115]
def k_created_at : Str := [99, 114, 101, 97, 116, 101, 100, 95, 97, 116]
def k_last_activity : Str := [108, 97, 115, 116, 95, 97, 99, 116, 105, 118, 105, 116, 121]

/-- Serialize a `SessionInfo` (fields in declaration order). -/
def sessionInfoJson (si : SessionInfo) : Json :=
  .obj [(k_id, uuidJson si.id),
        (k_shell, .str si.shell),
        (k_working_directory, optStrJson si.working_directory),
        (k_attached_clients, uuidListJson si.attached_clients),
        (k_created_at, timeJson si.created_at),
        (k_last_activity, timeJson si.last_activity)]

/-- Deserialize a `SessionInfo`. -/
def sessionInfoFromJson (j : Json) : Option SessionInfo :=
  match j with
  | .obj kvs =>
    match getField kvs k_id with
    | some j1 =>
      match asUuid j1 with
      | some sid =>
        match getField kvs k_shell with
        | some j2 =>
          match asStr j2 with
          | some sh =>
            match getField kvs k_working_directory with
            | some j3 =>
              match asOptStr j3 with
              | some wd =>
                match getField kvs k_attached_clients with
                | some j4 =>
                  match j4 with
                  | .arr xs =>
                    match asUuidList xs with
                    | some acs =>
                      match getField kvs k_created_at with
                      | some j5 =>
                        match asTime j5 with
                        | some ca =>
                          match getField kvs k_last_activity with
                          | some j6 =>
                            match asTime j6 with
                            | some la =>
                              some ⟨sid, sh, wd, acs, ca, la⟩
                            | none => none
                          | none => none
                        | none => none
                      | none => none
                    | none => none
                  | _ => none
                | none => none
              | none => none
            | none => none
          | none => none
        | none => none
      | none => none
    | none => none
  | _ => none

/-- Serialize a `Vec<SessionInfo>` element list. -/
def sessionInfoListJson (sis : List SessionInfo) : Json := .arr (sis.map sessionInfoJson)

/-- Deserialize a `Vec<SessionInfo>` element list. -/
def sessionInfoListFromJson : List Json → Option (List SessionInfo)
  | [] => some []
  | j :: rest =>
    match sessionInfoFromJson j with
    | some si =>
      match sessionInfoListFromJson rest with
      | some sis => some (si :: sis)
      | none => none
    | none => none

/-! ## The message enums as serde_json values (externally tagged) -/

def k_RegisterClient : Str := [82, 101, 103, 105, 115, 116, 101, 114, 67, 108, 105, 101, 110, 116]
def k_RegisterAndCreateSession : Str := [82, 101, 103, 105, 115, 116, 101, 114, 65, 110, 100, 67, 114, 101, 97, 116, 101, 83, 101, 115, 115, 105, 111, 110]
def k_AttachToSession : Str := [65, 116, 116, 97, 99, 104, 84, 111, 83, 101, 115, 115, 105, 111, 110]
def k_DetachFromSession : Str := [68, 101, 116, 97, 99, 104, 70, 114, 111, 109, 83, 101, 115, 115, 105, 111, 110]
def k_SendInput : Str := [83, 101, 110, 100, 73, 110, 112, 117, 116]
def k_ResizeSession : Str := [82, 101, 115, 105, 122, 101, 83, 101, 115, 115, 105, 111, 110]
def k_ReadOutput : Str := [82, 101, 97, 100, 79, 117, 116, 112, 117, 116]
def k_ListSessions : Str := [76, 105, 115, 116, 83, 101, 115, 115, 105, 111, 110, 115]
def k_TerminateSession : Str := [84, 101, 114, 109, 105, 110, 97, 116, 101, 83, 101, 115, 115, 105, 111, 110]
def k_Disconnect : Str := [68, 105, 115, 99, 111, 110, 110, 101, 99, 116]
def k_session_id : Str := [115, 101, 115, 115, 105, 111, 110, 95, 105, 100]
def k_client_id : Str := [99, 108, 105, 101, 110, 116, 95, 105, 100]
def k_data : Str := [100, 97, 116, 97]
def k_cols : Str := [99, 111, 108, 115]
def k_rows : Str := [114, 111, 119, 115]

/-- The serde_json value of a `ClientMessage` (externally tagged enum;
unit variants are plain strings, struct variants single-member objects). -/
def clientMessageJson : ClientMessage → Json
  | .RegisterClient cid =>
    .obj [(k_RegisterClient, .obj [(k_client_id, uuidJson cid)])]
  | .RegisterAndCreateSession sid sh wd =>
    .obj [(k_RegisterAndCreateSession,
      .obj [(k_session_id, uuidJson sid), (k_shell, .str sh),
            (k_working_directory, optStrJson wd)])]
  | .AttachToSession sid cid =>
    .obj [(k_AttachToSession, .obj [(k_session_id, uuidJson sid), (k_client_id, uuidJson cid)])]
  | .DetachFromSession sid cid =>
    .obj [(k_DetachFromSession, .obj [(k_session_id, uuidJson sid), (k_client_id, uuidJson cid)])]
  | .SendInput sid data =>
    .obj [(k_SendInput, .obj [(k_session_id, uuidJson sid), (k_data, bytesJson data)])]
  | .ResizeSession sid cols rows =>
    .obj [(k_ResizeSession,
      .obj [(k_session_id, uuidJson sid), (k_cols, .num cols), (k_rows, .num rows)])]
  | .ReadOutput sid =>
    .obj [(k_ReadOutput, .obj [(k_session_id, uuidJson sid)])]
  | .ListSessions => .str k_ListSessions
  | .TerminateSession sid =>
    .obj [(k_TerminateSession, .obj [(k_session_id, uuidJson sid)])]
  | .Disconnect cid =>
    .obj [(k_Disconnect, .obj [(k_client_id, uuidJson cid)])]

/-- Deserialize a `ClientMessage` from its serde_json value; `none` models a
serde error (in particular an unknown variant name). -/
def clientMessageFromJson : Json → Option ClientMessage
  | .str s => if s = k_ListSessions then some .ListSessions else none
  | .obj [(k, v)] =>
    if k = k_RegisterClient then
      match v with
      | .obj fs =>
        match getField fs k_client_id with
        | some j =>
          match asUuid j with
          | some cid => some (.RegisterClient cid)
          | none => none
        | none => none
      | _ => none
    else if k = k_RegisterAndCreateSession then
      match v with
      | .obj fs =>
        match getField fs k_session_id with
        | some j1 =>
          match asUuid j1 with
          | some sid =>
            match getField fs k_shell with
            | some j2 =>
              match asStr j2 with
              | some sh =>
                match getField fs k_working_directory with
                | some j3 =>
                  match asOptStr j3 with
                  | some wd => some (.RegisterAndCreateSession sid sh wd)
                  | none => none
                | none => none
              | none => none
            | none => none
          | none => none
        | none => none
      | _ => none
    else if k = k_AttachToSession then
      match v with
      | .obj fs =>
        match getField fs k_session_id with
        | some j1 =>
          match asUuid j1 with
          | some sid =>
            match getField fs k_client_id with
            | some j2 =>
              match asUuid j2 with
              | some cid => some (.AttachToSession sid cid)
              | none => none
            | none => none
          | none => none
        | none => none
      | _ => none
    else if k = k_DetachFromSession then
      match v with
      | .obj fs =>
        match getField fs k_session_id with
        | some j1 =>
          match asUuid j1 with
          | some sid =>
            match getField fs k_client_id with
            | some j2 =>
              match asUuid j2 with
              | some cid => some (.DetachFromSession sid cid)
              | none => none
            | none => none
          | none => none
        | none => none
      | _ => none
    else if k = k_SendInput then
      match v with
      | .obj fs =>
        match getField fs k_session_id with
        | some j1 =>
          match asUuid j1 with
          | some sid =>
            match getField fs k_data with
            | some j2 =>
              match asBytes j2 with
              | some data => some (.SendInput sid data)
              | none => none
            | none => none
          | none => none
        | none => none
      | _ => none
    else if k = k_ResizeSession then
      match v with
      | .obj fs =>
        match getField fs k_session_id with
        | some j1 =>
          match asUuid j1 with
          | some sid =>
            match getField fs k_cols with
            | some j2 =>
              match asNum (2 ^ 16) j2 with
              | some cols =>
                match getField fs k_rows with
                | some j3 =>
                  match asNum (2 ^ 16) j3 with
                  | some rows => some (.ResizeSession sid cols rows)
                  | none => none
                | none => none
              | none => none
            | none => none
          | none => none
        | none => none
      | _ => none
    else if k = k_ReadOutput then
      match v with
      | .obj fs =>
        match getField fs k_session_id with
        | some j1 =>
          match asUuid j1 with
          | some sid => some (.ReadOutput sid)
          | none => none
        | none => none
      | _ => none
    else if k = k_TerminateSession then
      match v with
      | .obj fs =>
        match getField fs k_session_id with
        | some j1 =>
          match asUuid j1 with
          | some sid => some (.TerminateSession sid)
          | none => none
        | none => none
      | _ => none
    else if k = k_Disconnect then
      match v with
      | .obj fs =>
        match getField fs k_client_id with
        | some j =>
          match asUuid j with
          | some cid => some (.Disconnect cid)
          | none => none
        | none => none
      | _ => none
    else none
  | _ => none

def k_ClientRegistered : Str := [67, 108, 105, 101, 110, 116, 82, 101, 103, 105, 115, 116, 101, 114, 101, 100]
def k_SessionCreated : Str := [83, 101, 115, 115, 105, 111, 110, 67, 114, 101, 97, 116, 101, 100]
def k_SessionOutput : Str := [83, 101, 115, 115, 105, 111, 110, 79, 117, 116, 112, 117, 116]
def k_SessionTerminated : Str := [83, 101, 115, 115, 105, 111, 110, 84, 101, 114, 109, 105, 110, 97, 116, 101, 100]
def k_SessionList : Str := [83, 101, 115, 115, 105, 111, 110, 76, 105, 115, 116]
def k_Error : Str := [69, 114, 114, 111, 114]
def k_sessions : Str := [115, 101, 115, 115, 105, 111, 110, 115]
def k_message : Str := [109, 101, 115, 115, 97, 103, 101]

/-- The serde_json value of a `DaemonMessage`. -/
def daemonMessageJson : DaemonMessage → Json
  | .ClientRegistered cid =>
    .obj [(k_ClientRegistered, .obj [(k_client_id, uuidJson cid)])]
  | .SessionCreated sid =>
    .obj [(k_SessionCreated, .obj [(k_session_id, uuidJson sid)])]
  | .SessionOutput sid data =>
    .obj [(k_SessionOutput, .obj [(k_session_id, uuidJson sid), (k_data, bytesJson data)])]
  | .SessionTerminated sid =>
    .obj [(k_SessionTerminated, .obj [(k_session_id, uuidJson sid)])]
  | .SessionList sessions =>
    .obj [(k_SessionList, .obj [(k_sessions, sessionInfoListJson sessions)])]
  | .Error message =>
    .obj [(k_Error, .obj [(k_message, .str message)])]

/-- Deserialize a `DaemonMessage` from its serde_json value. -/
def daemonMessageFromJson : Json → Option DaemonMessage
  | .obj [(k, v)] =>
    if k = k_ClientRegistered then
      match v with
      | .obj fs =>
        match getField fs k_client_id with
        | some j =>
          match asUuid j with
          | some cid => some (.ClientRegistered cid)
          | none => none
        | none => none
      | _ => none
    else if k = k_SessionCreated then
      match v with
      | .obj fs =>
        match getField fs k_session_id with
        | some j =>
          match asUuid j with
          | some sid => some (.SessionCreated sid)
          | none => none
        | none => none
      | _ => none
    else if k = k_SessionOutput then
      match v with
      | .obj fs =>
        match getField fs k_session_id with
        | some j1 =>
          match asUuid j1 with
          | some sid =>
            match getField fs k_data with
            | some j2 =>
              match asBytes j2 with
              | some data => some (.SessionOutput sid data)
              | none => none
            | none => none
          | none => none
        | none => none
      | _ => none
    else if k = k_SessionTerminated then
      match v with
      | .obj fs =>
        match getField fs k_session_id with
        | some j =>
          match asUuid j with
          | some sid => some (.SessionTerminated sid)
          | none => none
        | none => none
      | _ => none
    else if k = k_SessionList then
      match v with
      | .obj fs =>
        match getField fs k_sessions with
        | some j =>
          match j with
          | .arr xs =>
            match sessionInfoListFromJson xs with
            | some sis => some (.SessionList sis)
            | none => none
          | _ => none
        | none => none
      | _ => none
    else if k = k_Error then
      match v with
      | .obj fs =>
        match getField fs k_message with
        | some j =>
          match asStr j with
          | some msg => some (.Error msg)
          | none => none
        | none => none
      | _ => none
    else none
  | _ => none

def k_Client : Str := [67, 108, 105, 101, 110, 116]
def k_Daemon : Str := [68, 97, 101, 109, 111, 110]

/-- The serde_json value of a `JsonMessage`. -/
def jsonMessageJson : JsonMessage → Json
  | .Client m => .obj [(k_Client, clientMessageJson m)]
  | .Daemon m => .obj [(k_Daemon, daemonMessageJson m)]

/-- Deserialize a `JsonMessage` from its serde_json value. -/
def jsonMessageFromJson : Json → Option JsonMessage
  | .obj [(k, v)] =>
    if k = k_Client then
      match clientMessageFromJson v with
      | some m => some (.Client m)
      | none => none
    else if k = k_Daemon then
      match daemonMessageFromJson v with
      | some m => some (.Daemon m)
      | none => none
    else none
  | _ => none

/-! ## Well-formedness: the bounds the Rust types enforce

The Lean embedding widens `Uuid`, `u8`, `u16`, `u64`, `u32` and `String` to
`Nat` / codepoint lists; these predicates restore the invariants every value
of the Rust types satisfies by construction. -/

/-- A 128-bit UUID value. -/
def uuidWF (u : Uuid) : Prop := u < 2 ^ 128

instance (u : Uuid) : Decidable (uuidWF u) := by unfold uuidWF; infer_instance

/-- `SystemTime` component bounds (`u64` seconds, `u32` nanoseconds). -/
def timeWF (t : TimeStamp) : Prop := t.secs < 2 ^ 64 ∧ t.nanos < 2 ^ 32

instance (t : TimeStamp) : Decidable (timeWF t) := by unfold timeWF; infer_instance

/-- An optional string of Unicode scalars. -/
def optStrWF : Option Str → Prop
  | none => True
  | some s => ValidStr s

instance (o : Option Str) : Decidable (optStrWF o) := by
  unfold optStrWF; cases o <;> infer_instance

/-- All bytes below 256. -/
def bytesWF (data : List Nat) : Prop := ∀ b ∈ data, b < 256

instance (data : List Nat) : Decidable (bytesWF data) := List.decidableBAll _ data

/-- The invariants of a Rust `SessionInfo` value. -/
def SessionInfo.wf (si : SessionInfo) : Prop :=
  uuidWF si.id ∧ ValidStr si.shell ∧ optStrWF si.working_directory ∧
    (∀ u ∈ si.attached_clients, uuidWF u) ∧ timeWF si.created_at ∧ timeWF si.last_activity

instance (si : SessionInfo) : Decidable si.wf := by
  unfold SessionInfo.wf; infer_instance

/-- The invariants of a Rust `ClientMessage` value. -/
def ClientMessage.wf : ClientMessage → Prop
  | .RegisterClient cid => uuidWF cid
  | .RegisterAndCreateSession sid sh wd => uuidWF sid ∧ ValidStr sh ∧ optStrWF wd
  | .AttachToSession sid cid => uuidWF sid ∧ uuidWF cid
  | .DetachFromSession sid cid => uuidWF sid ∧ uuidWF cid
  | .SendInput sid data => uuidWF sid ∧ bytesWF data
  | .ResizeSession sid cols rows => uuidWF sid ∧ cols < 2 ^ 16 ∧ rows < 2 ^ 16
  | .ReadOutput sid => uuidWF sid
  | .ListSessions => True
  | .TerminateSession sid => uuidWF sid
  | .Disconnect cid => uuidWF cid

instance (m : ClientMessage) : Decidable m.wf := by
  unfold ClientMessage.wf; cases m <;> infer_instance

/-- The invariants of a Rust `DaemonMessage` value. -/
def DaemonMessage.wf : DaemonMessage → Prop
  | .ClientRegistered cid => uuidWF cid
  | .SessionCreated sid => uuidWF sid
  | .SessionOutput sid data => uuidWF sid ∧ bytesWF data
  | .SessionTerminated sid => uuidWF sid
  | .SessionList sessions => ∀ si ∈ sessions, si.wf
  | .Error message => ValidStr message

instance (m : DaemonMessage) : Decidable m.wf := by
  unfold DaemonMessage.wf; cases m <;> infer_instance

/-- The invariants of a Rust `JsonMessage` value. -/
def JsonMessage.wf : JsonMessage → Prop
  | .Client m => m.wf
  | .Daemon m => m.wf

instance (m : JsonMessage) : Decidable m.wf := by
  unfold JsonMessage.wf; cases m <;> infer_instance

/-- The invariants of a Rust `ProtocolMessage` value. -/
def ProtocolMessage.wf : ProtocolMessage → Prop
  | .Json m => m.wf
  | .Bytes data => bytesWF data

instance (m : ProtocolMessage) : Decidable m.wf := by
  unfold ProtocolMessage.wf; cases m <;> infer_instance

/-! ## Framing (src/ipc/messages.rs lines 115–178) -/

/-- `ProtocolMessage::to_bytes` (lines 117–137): serialize the payload with
its type tag, then prepend the 4-byte big-endian length of the tagged
payload.  serde_json cannot fail on these types, so the result is total. -/
def to_bytes (m : ProtocolMessage) : List Nat :=
  let payload : List Nat :=
    match m with
    | .Json jm => 0 :: utf8Encode (renderVal (jsonMessageJson jm))
    | .Bytes data => 1 :: data
  toBE4 payload.length ++ payload

/-- `ProtocolMessage::from_bytes` (lines 139–159): dispatch on the first
byte; tag 0 is UTF-8 JSON (which must parse completely and name a known
variant), tag 1 is raw bytes, anything else is an error. -/
def from_bytes (data : List Nat) : Except String ProtocolMessage :=
  match data with
  | [] => .error "Empty data"
  | msg_type :: payload =>
    if msg_type = 0 then
      match utf8Decode payload with
      | some chars =>
        match parseVal chars.length chars with
        | some (v, []) =>
          match jsonMessageFromJson v with
          | some jm => .ok (.Json jm)
          | none => .error "unknown variant"
        | _ => .error "invalid JSON"
      | none => .error "invalid UTF-8"
    else if msg_type = 1 then .ok (.Bytes payload)
    else .error "Unknown message type"

/-- The 1 MiB frame limit of `read_from_stream` (line 168). -/
def MAX_MESSAGE_LENGTH : Nat := 1024 * 1024

/-- `ProtocolMessage::read_from_stream` (lines 161–177) on a byte stream:
read exactly 4 length bytes, reject declared lengths above 1 MiB, read
exactly that many bytes, then `from_bytes`. -/
def read_from_stream (input : List Nat) : Except String ProtocolMessage :=
  if input.length < 4 then .error "eof"
  else
    let message_length := beU32 (input.take 4)
    if message_length > MAX_MESSAGE_LENGTH then .error "Message too large"
    else if (input.drop 4).length < message_length then .error "eof"
    else from_bytes ((input.drop 4).take message_length)

/-! ## The connection read loop (src/bin/tterm-daemon.rs lines 275–331) -/

/-- What one iteration of the read loop does with a frame. -/
inductive LoopAction where
  | respond (reply : DaemonMessage)
  | silent
  | rawInput (delivered : Option Uuid)
  | ignore
  | close
  deriving DecidableEq, Repr

/-- One iteration of `handle_client_connection`'s read loop: a client JSON
message is dispatched (with or without a reply), raw bytes are routed via
the connection's binding, an unexpected daemon-originated message is logged
and ignored, and any read error breaks the loop, closing the connection. -/
def connection_loop_step (readResult : Except String ProtocolMessage) (d : PtyDaemon)
    (client_id : Uuid) (now : Nat) (o : Oracle) : PtyDaemon × LoopAction :=
  match readResult with
  | .ok (.Json (.Client client_msg)) =>
    let (d', resp) := handle_client_message d client_id client_msg now o
    (d', match resp with
         | some r => .respond r
         | none => .silent)
  | .ok (.Bytes _) =>
    let (d', delivered) := handle_raw_bytes d client_id o.sendOk now
    (d', .rawInput delivered)
  | .ok (.Json (.Daemon _)) => (d, .ignore)
  | .error _ => (d, .close)

/-- A run of `n` zero bytes (kept opaque to rewriting; used for large
concrete frames). -/
def zeros (n : Nat) : List Nat := List.replicate n 0

/-- Decidable equality for `Except` results. -/
def exceptDecEq {ε α : Type} [DecidableEq ε] [DecidableEq α] :
    (a b : Except ε α) → Decidable (a = b)
  | .error e1, .error e2 =>
    if h : e1 = e2 then .isTrue (by rw [h]) else .isFalse (fun hh => h (Except.error.inj hh))
  | .error _, .ok _ => .isFalse (fun hh => Except.noConfusion hh)
  | .ok _, .error _ => .isFalse (fun hh => Except.noConfusion hh)
  | .ok v1, .ok v2 =>
    if h : v1 = v2 then .isTrue (by rw [h]) else .isFalse (fun hh => h (Except.ok.inj hh))

instance {ε α : Type} [DecidableEq ε] [DecidableEq α] : DecidableEq (Except ε α) := exceptDecEq

/-- The first character of `rest` is not a decimal digit (so a number parse
stops exactly at the boundary). -/
def headNotDigit : List Nat → Prop
  | [] => True
  | c :: _ => ¬ (48 ≤ c ∧ c ≤ 57)

instance (l : List Nat) : Decidable (headNotDigit l) := by
  unfold headNotDigit
  cases l <;> infer_instance

/-- Guard for number parsing: a rendered number must not be followed by a
digit (inside arrays and objects the next character is always a separator
or a closing bracket). -/
def numGuard : Json → List Nat → Prop
  | .num _, rest => headNotDigit rest
  | _, _ => True

/-! # Lemmas

General lemmas about the association-list maps and the session operations,
shared by the claim theorems below. -/

theorem length_zeros (n : Nat) : (zeros n).length = n := List.length_replicate n 0

theorem updateSession_cons_pos (k sid : Uuid) (s : PtySession) (rest : SessionMap)
    (f : PtySession → PtySession) (h : k = sid) :
    updateSession ((k, s) :: rest) sid f = (k, f s) :: updateSession rest sid f := by
  simp [updateSession, h]

theorem updateSession_cons_neg (k sid : Uuid) (s : PtySession) (rest : SessionMap)
    (f : PtySession → PtySession) (h : ¬ k = sid) :
    updateSession ((k, s) :: rest) sid f = (k, s) :: updateSession rest sid f := by
  simp [updateSession, h]

theorem lookupSession_updateSession_self (m : SessionMap) (sid : Uuid) (f : PtySession → PtySession) :
    lookupSession (updateSession m sid f) sid = (lookupSession m sid).map f := by
  induction m with
  | nil => rfl
  | cons p rest ih =>
    obtain ⟨k, s⟩ := p
    by_cases h : k = sid
    · rw [updateSession_cons_pos k sid s rest f h]
      simp only [lookupSession, if_pos h]
      rfl
    · rw [updateSession_cons_neg k sid s rest f h]
      simp only [lookupSession, if_neg h]
      exact ih

theorem lookupSession_updateSession_ne (m : SessionMap) (sid sid' : Uuid)
    (f : PtySession → PtySession) (h : sid' ≠ sid) :
    lookupSession (updateSession m sid f) sid' = lookupSession m sid' := by
  induction m with
  | nil => rfl
  | cons p rest ih =>
    obtain ⟨k, s⟩ := p
    by_cases hp : k = sid
    · have hk : ¬ k = sid' := fun e => h (Eq.symm (hp ▸ e))
      rw [updateSession_cons_pos k sid s rest f hp]
      simp only [lookupSession, if_neg hk]
      exact ih
    · rw [updateSession_cons_neg k sid s rest f hp]
      simp only [lookupSession]
      by_cases hk : k = sid'
      · rw [if_pos hk, if_pos hk]
      · rw [if_neg hk, if_neg hk]
        exact ih

theorem lookupSession_insertSession_self (m : SessionMap) (sid : Uuid) (s : PtySession)
    (h : containsSession m sid = false) :
    lookupSession (insertSession m sid s) sid = some s := by
  induction m with
  | nil => simp [insertSession, lookupSession]
  | cons p rest ih =>
    obtain ⟨k, t⟩ := p
    by_cases hp : k = sid
    · exfalso
      simp [containsSession, lookupSession, hp] at h
    · simp only [containsSession, lookupSession, if_neg hp] at h
      simp only [insertSession, List.cons_append, lookupSession, if_neg hp]
      exact ih h

theorem lookupSession_insertSession_ne (m : SessionMap) (sid sid' : Uuid) (s : PtySession)
    (h : sid' ≠ sid) :
    lookupSession (insertSession m sid s) sid' = lookupSession m sid' := by
  induction m with
  | nil =>
    simp only [insertSession, List.nil_append, lookupSession]
    rw [if_neg (fun e : sid = sid' => h (Eq.symm e))]
  | cons p rest ih =>
    obtain ⟨k, t⟩ := p
    simp only [insertSession, List.cons_append, lookupSession]
    by_cases hk : k = sid'
    · rw [if_pos hk, if_pos hk]
    · rw [if_neg hk, if_neg hk]
      exact ih

theorem lookupSession_mapValues (m : SessionMap) (f : PtySession → PtySession) (sid : Uuid) :
    lookupSession (m.map (fun p => (p.1, f p.2))) sid = (lookupSession m sid).map f := by
  induction m with
  | nil => rfl
  | cons p rest ih =>
    obtain ⟨k, s⟩ := p
    simp only [List.map, lookupSession]
    by_cases hk : k = sid
    · rw [if_pos hk, if_pos hk]
      rfl
    · rw [if_neg hk, if_neg hk]
      exact ih

theorem containsSession_false_lookup (m : SessionMap) (sid : Uuid)
    (h : containsSession m sid = false) : lookupSession m sid = none := by
  unfold containsSession at h
  exact Option.not_isSome_iff_eq_none.mp (by simp [h])

theorem mem_insertBinding_elim (b : BindingMap) (c sid : Uuid) (p : Uuid × Uuid)
    (h : p ∈ insertBinding b c sid) : (p ∈ b ∧ p.1 ≠ c) ∨ p = (c, sid) := by
  unfold insertBinding at h
  rcases List.mem_append.mp h with h1 | h2
  · left
    have := List.mem_filter.mp h1
    exact ⟨this.1, by simpa using this.2⟩
  · right
    simpa using h2

theorem mem_removeBinding_elim (b : BindingMap) (c : Uuid) (p : Uuid × Uuid)
    (h : p ∈ removeBinding b c) : p ∈ b ∧ p.1 ≠ c := by
  unfold removeBinding at h
  have := List.mem_filter.mp h
  exact ⟨this.1, by simpa using this.2⟩

theorem lookupBinding_append (b1 b2 : BindingMap) (c : Uuid) :
    lookupBinding (b1 ++ b2) c =
      (match lookupBinding b1 c with
       | some sid => some sid
       | none => lookupBinding b2 c) := by
  induction b1 with
  | nil => rfl
  | cons p rest ih =>
    obtain ⟨k, sid⟩ := p
    simp only [List.cons_append, lookupBinding]
    by_cases hk : k = c
    · rw [if_pos hk, if_pos hk]
    · rw [if_neg hk, if_neg hk]
      exact ih

theorem lookupBinding_filterKeyNe (b : BindingMap) (c c' : Uuid) (h : c' ≠ c) :
    lookupBinding (b.filter (fun p => p.1 ≠ c)) c' = lookupBinding b c' := by
  induction b with
  | nil => rfl
  | cons p rest ih =>
    obtain ⟨k, sid⟩ := p
    by_cases hk : k = c
    · have : k ≠ c' := fun e => h (Eq.symm (hk ▸ e))
      simp only [List.filter, show (decide ¬ k = c) = false by simp [hk]]
      simp only [lookupBinding, if_neg this]
      exact ih
    · simp only [List.filter, show (decide ¬ k = c) = true by simp [hk]]
      simp only [lookupBinding]
      by_cases hc' : k = c'
      · rw [if_pos hc', if_pos hc']
      · rw [if_neg hc', if_neg hc']
        exact ih

theorem lookupBinding_insertBinding_self (b : BindingMap) (c sid : Uuid) :
    lookupBinding (insertBinding b c sid) c = some sid := by
  unfold insertBinding
  rw [lookupBinding_append]
  rw [show lookupBinding (b.filter (fun p => p.1 ≠ c)) c = none from ?keyGone]
  · simp [lookupBinding]
  case keyGone =>
    induction b with
    | nil => rfl
    | cons p rest ih =>
      obtain ⟨k, s⟩ := p
      by_cases hk : k = c
      · simp only [List.filter, show (decide ¬ k = c) = false by simp [hk]]
        exact ih
      · simp only [List.filter, show (decide ¬ k = c) = true by simp [hk]]
        simp only [lookupBinding, if_neg hk]
        exact ih

theorem lookupBinding_insertBinding_ne (b : BindingMap) (c c' sid : Uuid) (h : c' ≠ c) :
    lookupBinding (insertBinding b c sid) c' = lookupBinding b c' := by
  unfold insertBinding
  rw [lookupBinding_append, lookupBinding_filterKeyNe b c c' h]
  cases hb : lookupBinding b c' with
  | some s => rfl
  | none => simp [lookupBinding, if_neg (fun e : c = c' => h (Eq.symm e))]

theorem lookupBinding_filter_none (b : BindingMap) (c : Uuid) (q : Uuid × Uuid → Bool)
    (h : lookupBinding b c = none) : lookupBinding (b.filter q) c = none := by
  induction b with
  | nil => rfl
  | cons p rest ih =>
    obtain ⟨k, sid⟩ := p
    by_cases hk : k = c
    · simp [lookupBinding, hk] at h
    · simp only [lookupBinding, if_neg hk] at h
      simp only [List.filter]
      cases hq : q (k, sid) with
      | true =>
        simp only [lookupBinding, if_neg hk]
        exact ih h
      | false => exact ih h

theorem attach_client_mem_self (s : PtySession) (c : Uuid) (now : Nat) :
    c ∈ (s.attach_client c now).attached_clients := by
  unfold PtySession.attach_client
  by_cases h : c ∈ s.attached_clients
  · rw [if_pos h]
    exact h
  · simp [h]

theorem attach_client_mem_mono (s : PtySession) (c x : Uuid) (now : Nat)
    (h : x ∈ s.attached_clients) : x ∈ (s.attach_client c now).attached_clients := by
  unfold PtySession.attach_client
  by_cases hc : c ∈ s.attached_clients
  · simpa [hc] using h
  · simp [hc, List.mem_append]
    left
    exact h

theorem detach_client_mem (s : PtySession) (c x : Uuid) (now : Nat)
    (h : x ∈ s.attached_clients) (hx : x ≠ c) :
    x ∈ (s.detach_client c now).attached_clients := by
  unfold PtySession.detach_client
  simp [List.mem_filter, h, hx]

theorem filter_ne_of_not_mem (l : List Uuid) (c : Uuid) (h : c ∉ l) :
    l.filter (fun i => i ≠ c) = l := by
  induction l with
  | nil => rfl
  | cons x rest ih =>
    have hx : ¬ x = c := fun e => h (e ▸ List.mem_cons_self x rest)
    have hrest : c ∉ rest := fun hr => h (List.mem_cons_of_mem x hr)
    simp only [List.filter, show (decide (x ≠ c)) = true by simp [hx]]
    rw [ih hrest]

theorem detach_client_not_mem (s : PtySession) (c : Uuid) (now : Nat)
    (h : c ∉ s.attached_clients) :
    s.detach_client c now = { s with last_activity := now } := by
  unfold PtySession.detach_client
  rw [filter_ne_of_not_mem s.attached_clients c h]

theorem should_cleanup_iff (s : PtySession) (timeout now : Nat) :
    s.should_cleanup timeout now = true ↔
      (s.attached_clients = [] ∧ s.last_activity ≤ now ∧
        timeout < (now - s.last_activity) / 1000000000) := by
  unfold PtySession.should_cleanup PtySession.is_orphaned
  by_cases he : s.attached_clients = []
  · simp [he]
  · simp [he, List.isEmpty_iff]

theorem mem_cleanup_iff (m : SessionMap) (timeout now : Nat) (p : Uuid × PtySession) :
    p ∈ cleanup_orphaned_sessions m timeout now ↔
      p ∈ m ∧ ¬ p.2.should_cleanup timeout now = true := by
  unfold cleanup_orphaned_sessions
  rw [List.mem_filter]
  simp

/-! # Claim theorems -/

/-- C4 counterexample: for the concrete call `open(id, "/bin/bash", "/tmp")`,
the command built by `PtySession::initialize_pty` does not carry the argument
list `[-i, -l]` together with the claimed environment overrides — it carries
no arguments and no environment overrides at all (those appear only in the
unused `SimplePtySession`). -/
theorem c4_counterexample :
    ¬ ((initialize_pty [47, 98, 105, 110, 47, 98, 97, 115, 104]
          (some [47, 116, 109, 112])).2.args = [[45, 105], [45, 108]] ∧
       (initialize_pty [47, 98, 105, 110, 47, 98, 97, 115, 104]
          (some [47, 116, 109, 112])).2.envs =
         [([84, 69, 82, 77], [120, 116, 101, 114, 109, 45, 50, 53, 54, 99, 111, 108, 111, 114]),
          ([76, 67, 95, 65, 76, 76], [101, 110, 95, 85, 83, 46, 85, 84, 70, 45, 56]),
          ([76, 65, 78, 71], [101, 110, 95, 85, 83, 46, 85, 84, 70, 45, 56]),
          ([67, 79, 76, 85, 77, 78, 83], [56, 48]),
          ([76, 73, 78, 69, 83], [50, 52])]) := by
  decide

/-- C4 (amended): `PtySession::initialize_pty` allocates the PTY with size
80 columns by 24 rows and passes the working directory through when it is
set, but spawns the shell with an empty argument list and no environment
overrides. -/
theorem c4_initialize_pty (shell : Str) (wd : Option Str) :
    initialize_pty shell wd =
      ({ rows := 24, cols := 80, pixel_width := 0, pixel_height := 0 },
       { program := shell, args := [], envs := [], cwd := wd }) := by
  cases wd <;> rfl

/-- C5 counterexample: with the default 300 s orphan timeout, an orphaned
session whose `last_activity` lies 300.5 s in the past (the elapsed time
strictly exceeds the timeout: `300.5e9 ns > 300e9 ns`) is NOT removed by the
sweep, because `Duration::as_secs` truncates to 300 whole seconds and the
comparison `300 > 300` fails. -/
theorem c5_counterexample :
    orphan_timeout_seconds * 1000000000 <
      300500000000 - (⟨7, [], none, [], 0, 0⟩ : PtySession).last_activity ∧
    cleanup_orphaned_sessions [(7, ⟨7, [], none, [], 0, 0⟩)] orphan_timeout_seconds
      300500000000 = [(7, ⟨7, [], none, [], 0, 0⟩)] := by
  constructor
  · norm_num [orphan_timeout_seconds]
  · decide

/-- C5 (amended): the orphan sweep removes a session exactly when its
attached set is empty, its `last_activity` is not in the future, and the
whole-second count of the elapsed time strictly exceeds the timeout
(`floor((now − last_activity)/1s) > timeout`, i.e. at least `timeout + 1`
full seconds have elapsed); in particular a session with at least one
attached client is never removed. -/
theorem c5_sweep (m : SessionMap) (timeout now : Nat) (p : Uuid × PtySession) :
    (p ∈ cleanup_orphaned_sessions m timeout now ↔
      p ∈ m ∧ ¬ (p.2.attached_clients = [] ∧ p.2.last_activity ≤ now ∧
        timeout < (now - p.2.last_activity) / 1000000000)) ∧
    (p.2.attached_clients ≠ [] → p ∈ m → p ∈ cleanup_orphaned_sessions m timeout now) := by
  constructor
  · rw [mem_cleanup_iff, should_cleanup_iff]
  · intro hne hp
    rw [mem_cleanup_iff, should_cleanup_iff]
    exact ⟨hp, fun hc => hne hc.1⟩

/-- C5 witness: a concrete instantiation of `c5_sweep`: a session with one
attached client survives the sweep. -/
theorem c5_sweep_witness :
    (7, (⟨7, [], none, [3], 0, 0⟩ : PtySession)) ∈
      cleanup_orphaned_sessions [(7, ⟨7, [], none, [3], 0, 0⟩)] 300 999000000000 := by
  exact (c5_sweep [(7, ⟨7, [], none, [3], 0, 0⟩)] 300 999000000000
    (7, ⟨7, [], none, [3], 0, 0⟩)).2 (by decide) (by decide)

/-- C6 counterexample: attaching a client that is already attached does NOT
refresh `last_activity` (the refresh sits inside the not-yet-attached
branch): here the session keeps `last_activity = 0` instead of taking the
claimed refresh to 7. -/
theorem c6_counterexample :
    (PtySession.attach_client ⟨1, [], none, [5], 0, 0⟩ 5 7).last_activity = 0 ∧
    (0 : Nat) ≠ 7 := by
  decide

theorem attach_client_noop (t : PtySession) (c : Uuid) (now : Nat)
    (h : c ∈ t.attached_clients) : t.attach_client c now = t := by
  unfold PtySession.attach_client
  rw [if_pos h]

/-- C6 (amended): attaching an already-attached client is a complete no-op —
the attached set is unchanged (no duplicate is pushed) and `last_activity`
is NOT refreshed; consequently `attach; attach` is always equivalent to a
single `attach`. -/
theorem c6_attach_idempotent (s : PtySession) (c : Uuid) (now now2 : Nat) :
    (c ∈ s.attached_clients → s.attach_client c now = s) ∧
    (s.attach_client c now).attach_client c now2 = s.attach_client c now := by
  constructor
  · exact attach_client_noop s c now
  · exact attach_client_noop (s.attach_client c now) c now2 (attach_client_mem_self s c now)

/-- C6 witness: a concrete instantiation of `c6_attach_idempotent`. -/
theorem c6_attach_idempotent_witness :
    PtySession.attach_client ⟨1, [], none, [5], 0, 0⟩ 5 7 = ⟨1, [], none, [5], 0, 0⟩ ∧
    (PtySession.attach_client (PtySession.attach_client ⟨1, [], none, [], 0, 0⟩ 5 7) 5 9) =
      PtySession.attach_client ⟨1, [], none, [], 0, 0⟩ 5 7 := by
  exact ⟨(c6_attach_idempotent ⟨1, [], none, [5], 0, 0⟩ 5 7 9).1 (by decide),
         (c6_attach_idempotent ⟨1, [], none, [], 0, 0⟩ 5 7 9).2⟩

/-- C7 counterexample: detaching the client 9, which is not attached, from
the existing session 1 returns success (not an error), and it mutates the
session: `last_activity` jumps from 0 to the detach time 5. -/
theorem c7_counterexample :
    (detach_client_from_session [(1, ⟨1, [], none, [], 0, 0⟩)] 1 9 5).2 = .ok () ∧
    (detach_client_from_session [(1, ⟨1, [], none, [], 0, 0⟩)] 1 9 5).1 =
      [(1, ⟨1, [], none, [], 0, 5⟩)] := by
  decide

/-- C7 (amended): detaching a client that is not attached from an existing
session succeeds silently (`detach_client_from_session` errors only for a
missing session), leaves the attached set unchanged, but refreshes the
session's `last_activity` to the detach time; other sessions are untouched. -/
theorem c7_detach_not_attached (m : SessionMap) (sid c : Uuid) (now : Nat) (s : PtySession)
    (h1 : lookupSession m sid = some s) (h2 : c ∉ s.attached_clients) :
    (detach_client_from_session m sid c now).2 = .ok () ∧
    lookupSession (detach_client_from_session m sid c now).1 sid =
      some { s with last_activity := now } ∧
    (∀ sid', sid' ≠ sid →
      lookupSession (detach_client_from_session m sid c now).1 sid' = lookupSession m sid') := by
  have hc : containsSession m sid = true := by
    unfold containsSession
    rw [h1]
    rfl
  unfold detach_client_from_session
  rw [if_pos hc]
  refine ⟨rfl, ?_, ?_⟩
  · show lookupSession (updateSession m sid (fun s => s.detach_client c now)) sid = _
    rw [lookupSession_updateSession_self, h1]
    show some (s.detach_client c now) = _
    rw [detach_client_not_mem s c now h2]
  · intro sid' hne
    show lookupSession (updateSession m sid (fun s => s.detach_client c now)) sid' = _
    exact lookupSession_updateSession_ne m sid sid' _ hne

/-- C7 witness: a concrete instantiation of `c7_detach_not_attached`. -/
theorem c7_detach_not_attached_witness :
    (detach_client_from_session [(1, ⟨1, [], none, [2], 0, 0⟩)] 1 9 5).2 = .ok () ∧
    lookupSession (detach_client_from_session [(1, ⟨1, [], none, [2], 0, 0⟩)] 1 9 5).1 1 =
      some ⟨1, [], none, [2], 0, 5⟩ := by
  have h := c7_detach_not_attached [(1, ⟨1, [], none, [2], 0, 0⟩)] 1 9 5
    ⟨1, [], none, [2], 0, 0⟩ (by decide) (by decide)
  exact ⟨h.1, h.2.1⟩

/-- C9: creating a session under an id already present in the registry fails
with the already-exists error before anything is constructed, and the
registry map is returned unchanged. -/
theorem c9_create_existing (m : SessionMap) (sid : Uuid) (shell : Str) (wd : Option Str)
    (now : Nat) (spawnOk : Bool) (h : containsSession m sid = true) :
    create_session m sid shell wd now spawnOk = (m, .error "Session already exists") := by
  unfold create_session
  rw [if_pos h]

/-- C9 witness: a concrete instantiation of `c9_create_existing`. -/
theorem c9_create_existing_witness :
    create_session [(4, ⟨4, [], none, [], 0, 0⟩)] 4 [] none 9 true =
      ([(4, ⟨4, [], none, [], 0, 0⟩)], .error "Session already exists") := by
  exact c9_create_existing [(4, ⟨4, [], none, [], 0, 0⟩)] 4 [] none 9 true (by decide)

theorem attach_to_session_ok (m : SessionMap) (sid c : Uuid) (now : Nat)
    (h : containsSession m sid = true) :
    attach_client_to_session m sid c now =
      (updateSession m sid (fun s => s.attach_client c now), .ok ()) := by
  unfold attach_client_to_session
  rw [if_pos h]

theorem attach_to_session_err (m : SessionMap) (sid c : Uuid) (now : Nat)
    (h : ¬ containsSession m sid = true) :
    attach_client_to_session m sid c now = (m, .error "Session not found") := by
  unfold attach_client_to_session
  rw [if_neg h]

theorem detach_to_session_ok (m : SessionMap) (sid c : Uuid) (now : Nat)
    (h : containsSession m sid = true) :
    detach_client_from_session m sid c now =
      (updateSession m sid (fun s => s.detach_client c now), .ok ()) := by
  unfold detach_client_from_session
  rw [if_pos h]

theorem detach_to_session_err (m : SessionMap) (sid c : Uuid) (now : Nat)
    (h : ¬ containsSession m sid = true) :
    detach_client_from_session m sid c now = (m, .error "Session not found") := by
  unfold detach_client_from_session
  rw [if_neg h]

theorem containsSession_true_exists (m : SessionMap) (sid : Uuid)
    (h : containsSession m sid = true) : ∃ s, lookupSession m sid = some s := by
  unfold containsSession at h
  cases hl : lookupSession m sid with
  | some s => exact ⟨s, rfl⟩
  | none => rw [hl] at h; exact absurd h (by simp)

theorem containsSession_insertSession_self (m : SessionMap) (sid : Uuid) (s : PtySession)
    (h : containsSession m sid = false) :
    containsSession (insertSession m sid s) sid = true := by
  unfold containsSession
  rw [lookupSession_insertSession_self m sid s h]
  rfl

/-- C1 counterexample: the claimed equality of `|S.attached|` with the number
of bindings pointing to S holds after one `RegisterAndCreateSession` but is
destroyed by a second one
on the same connection: creating session 20 overwrites the connection's
binding, leaving session 10 with one attached client and zero bindings.
Both states are reached from the initial daemon state by the dispatcher
itself, so the equality is not an invariant and `RegisterAndCreateSession`
does not preserve it. -/
theorem c1_counterexample :
    invEq (handle_client_message PtyDaemon.initial 1 (.RegisterAndCreateSession 10 [] none)
      0 ⟨true, true, true, none⟩).1 ∧
    ¬ invEq (handle_client_message
        (handle_client_message PtyDaemon.initial 1 (.RegisterAndCreateSession 10 [] none)
          0 ⟨true, true, true, none⟩).1
        1 (.RegisterAndCreateSession 20 [] none) 0 ⟨true, true, true, none⟩).1 := by
  decide

/-- C1 (amended): the relation the code actually preserves between a
session's `attached` set and the binding map is one-sided membership, not
equality: if every client binding points to a registered session that lists
the client as attached (`invBind`), then processing `AttachToSession`,
`DetachFromSession`, `RegisterAndCreateSession` or `Disconnect` preserves
that property.  The claimed cardinality equality `|S.attached| =
#(bindings to S)` fails in reachable states (see the counterexample): a
session's attached set can strictly outgrow its binding count because a
client's single binding is overwritten when it attaches elsewhere. -/
theorem c1_binding_invariant (d : PtyDaemon) (conn : Uuid) (msg : ClientMessage) (now : Nat)
    (o : Oracle) (hInv : invBind d) (hOp : isBindingOp msg) :
    invBind (handle_client_message d conn msg now o).1 := by
  cases msg with
  | RegisterClient cid => exact absurd hOp (by unfold isBindingOp; simp)
  | SendInput sid data => exact absurd hOp (by unfold isBindingOp; simp)
  | ResizeSession sid cols rows => exact absurd hOp (by unfold isBindingOp; simp)
  | ReadOutput sid => exact absurd hOp (by unfold isBindingOp; simp)
  | ListSessions => exact absurd hOp (by unfold isBindingOp; simp)
  | TerminateSession sid => exact absurd hOp (by unfold isBindingOp; simp)
  | AttachToSession sid cid =>
    by_cases hc : containsSession d.session_manager sid = true
    · obtain ⟨s, hs⟩ := containsSession_true_exists d.session_manager sid hc
      simp only [handle_client_message, attach_to_session_ok d.session_manager sid cid now hc]
      intro p hp
      rcases mem_insertBinding_elim d.client_sessions cid sid p hp with ⟨hpb, _⟩ | hpe
      · have hok := hInv p hpb
        unfold bindingOk at hok ⊢
        cases hl : lookupSession d.session_manager p.2 with
        | none => rw [hl] at hok; exact hok.elim
        | some t =>
          rw [hl] at hok
          by_cases hps : p.2 = sid
          · rw [hps, lookupSession_updateSession_self, hs]
            exact attach_client_mem_mono s cid p.1 now (by rw [hps, hs] at hl; cases hl; exact hok)
          · rw [lookupSession_updateSession_ne d.session_manager sid p.2 _ hps, hl]
            exact hok
      · rw [hpe]
        unfold bindingOk
        rw [lookupSession_updateSession_self, hs]
        exact attach_client_mem_self s cid now
    · simp only [handle_client_message, attach_to_session_err d.session_manager sid cid now hc]
      exact hInv
  | DetachFromSession sid cid =>
    by_cases hc : containsSession d.session_manager sid = true
    · simp only [handle_client_message, detach_to_session_ok d.session_manager sid cid now hc]
      intro p hp
      obtain ⟨hpb, hpne⟩ := mem_removeBinding_elim d.client_sessions cid p hp
      have hok := hInv p hpb
      unfold bindingOk at hok ⊢
      cases hl : lookupSession d.session_manager p.2 with
      | none => rw [hl] at hok; exact hok.elim
      | some t =>
        rw [hl] at hok
        by_cases hps : p.2 = sid
        · rw [hps, lookupSession_updateSession_self]
          rw [hps] at hl
          rw [hl]
          exact detach_client_mem t cid p.1 now hok hpne
        · rw [lookupSession_updateSession_ne d.session_manager sid p.2 _ hps, hl]
          exact hok
    · simp only [handle_client_message, detach_to_session_err d.session_manager sid cid now hc]
      exact hInv
  | RegisterAndCreateSession sid shell wd =>
    by_cases hc : containsSession d.session_manager sid = true
    · simp only [handle_client_message, create_session, if_pos hc]
      exact hInv
    · have hcf : containsSession d.session_manager sid = false := by
        cases h : containsSession d.session_manager sid with
        | true => exact absurd h hc
        | false => rfl
      cases hsp : o.spawnOk with
      | false =>
        simp only [handle_client_message, create_session, if_neg hc, hsp, Bool.false_eq_true,
          if_false]
        exact hInv
      | true =>
        have hc1 : containsSession
            (insertSession d.session_manager sid (PtySession.new sid shell wd now)) sid = true :=
          containsSession_insertSession_self d.session_manager sid _ hcf
        simp only [handle_client_message, create_session, if_neg hc, hsp, if_true,
          attach_to_session_ok _ sid conn now hc1]
        intro p hp
        rcases mem_insertBinding_elim d.client_sessions conn sid p hp with ⟨hpb, _⟩ | hpe
        · have hok := hInv p hpb
          unfold bindingOk at hok ⊢
          cases hl : lookupSession d.session_manager p.2 with
          | none => rw [hl] at hok; exact hok.elim
          | some t =>
            rw [hl] at hok
            have hps : p.2 ≠ sid := by
              intro e
              rw [e] at hl
              rw [containsSession_false_lookup d.session_manager sid hcf] at hl
              exact Option.noConfusion hl
            rw [lookupSession_updateSession_ne _ sid p.2 _ hps,
              lookupSession_insertSession_ne d.session_manager sid p.2 _ hps, hl]
            exact hok
        · rw [hpe]
          unfold bindingOk
          rw [lookupSession_updateSession_self,
            lookupSession_insertSession_self d.session_manager sid _ hcf]
          exact attach_client_mem_self (PtySession.new sid shell wd now) conn now
  | Disconnect did =>
    simp only [handle_client_message]
    intro p hp
    obtain ⟨hpb, hpne⟩ := mem_removeBinding_elim d.client_sessions did p hp
    have hok := hInv p hpb
    unfold bindingOk at hok ⊢
    cases hl : lookupSession d.session_manager p.2 with
    | none => rw [hl] at hok; exact hok.elim
    | some t =>
      rw [hl] at hok
      dsimp only
      rw [lookupSession_mapValues d.session_manager
        (fun s => if did ∈ s.attached_clients then s.detach_client did now else s) p.2, hl]
      show p.1 ∈ (if did ∈ t.attached_clients then t.detach_client did now else t).attached_clients
      by_cases hd : did ∈ t.attached_clients
      · rw [if_pos hd]
        exact detach_client_mem t did p.1 now hok hpne
      · rw [if_neg hd]
        exact hok

/-- C1 witness: a concrete instantiation of `c1_binding_invariant`: attaching
an unknown session id on the empty daemon preserves the binding invariant. -/
theorem c1_binding_invariant_witness :
    invBind (handle_client_message PtyDaemon.initial 1 (.AttachToSession 10 2) 0
      ⟨true, true, true, none⟩).1 :=
  c1_binding_invariant PtyDaemon.initial 1 (.AttachToSession 10 2) 0
    ⟨true, true, true, none⟩ (by decide) (by unfold isBindingOp; simp)

theorem lookupBinding_stepEvent_none (d : PtyDaemon) (e : OpEvent) (c : Uuid)
    (h : lookupBinding d.client_sessions c = none) (hn : ¬ bindsClient c e) :
    lookupBinding (stepEvent d e).client_sessions c = none := by
  obtain ⟨conn, msg, now, o⟩ := e
  cases msg with
  | RegisterClient cid => exact h
  | ListSessions => exact h
  | RegisterAndCreateSession sid shell wd =>
    have hconn : conn ≠ c := by
      intro e
      exact hn (by unfold bindsClient; exact e)
    by_cases hc : containsSession d.session_manager sid = true
    · simp only [stepEvent, handle_client_message, create_session, if_pos hc]
      exact h
    · cases hsp : o.spawnOk with
      | false =>
        simp only [stepEvent, handle_client_message, create_session, if_neg hc, hsp,
          Bool.false_eq_true, if_false]
        exact h
      | true =>
        have hcf : containsSession d.session_manager sid = false := by
          cases hx : containsSession d.session_manager sid with
          | true => exact absurd hx hc
          | false => rfl
        have hc1 : containsSession
            (insertSession d.session_manager sid (PtySession.new sid shell wd now)) sid = true :=
          containsSession_insertSession_self d.session_manager sid _ hcf
        simp only [stepEvent, handle_client_message, create_session, if_neg hc, hsp, if_true,
          attach_to_session_ok _ sid conn now hc1]
        rw [lookupBinding_insertBinding_ne d.client_sessions conn c sid
          (fun e => hconn (Eq.symm e))]
        exact h
  | AttachToSession sid cid =>
    have hcid : cid ≠ c := fun e => hn (by unfold bindsClient; exact e)
    by_cases hc : containsSession d.session_manager sid = true
    · simp only [stepEvent, handle_client_message, attach_to_session_ok _ sid cid now hc]
      rw [lookupBinding_insertBinding_ne d.client_sessions cid c sid (fun e => hcid (Eq.symm e))]
      exact h
    · simp only [stepEvent, handle_client_message, attach_to_session_err _ sid cid now hc]
      exact h
  | DetachFromSession sid cid =>
    by_cases hc : containsSession d.session_manager sid = true
    · simp only [stepEvent, handle_client_message, detach_to_session_ok _ sid cid now hc]
      exact lookupBinding_filter_none d.client_sessions c _ h
    · simp only [stepEvent, handle_client_message, detach_to_session_err _ sid cid now hc]
      exact h
  | SendInput sid data =>
    simp only [stepEvent, handle_client_message]
    rcases hE : send_input_to_session d.session_manager sid o.sendOk now with ⟨m', r⟩
    cases r <;> exact h
  | ResizeSession sid cols rows =>
    simp only [stepEvent, handle_client_message]
    rcases hE : resize_session d.session_manager sid o.resizeOk with ⟨m', r⟩
    cases r <;> exact h
  | ReadOutput sid =>
    simp only [stepEvent, handle_client_message]
    rcases hE : read_output_from_session d.session_manager sid o.avail now with ⟨m', r⟩
    cases r with
    | error msg => exact h
    | ok v => cases v <;> exact h
  | TerminateSession sid =>
    simp only [stepEvent, handle_client_message]
    rcases hE : terminate_session d.session_manager sid with ⟨m', r⟩
    cases r <;> exact h
  | Disconnect did =>
    simp only [stepEvent, handle_client_message]
    exact lookupBinding_filter_none d.client_sessions c _ h

theorem lookupBinding_fold_none (evs : List OpEvent) (c : Uuid) :
    ∀ d : PtyDaemon, lookupBinding d.client_sessions c = none →
      (∀ e ∈ evs, ¬ bindsClient c e) →
      lookupBinding ((evs.foldl stepEvent d)).client_sessions c = none := by
  induction evs with
  | nil => exact fun d h _ => h
  | cons e rest ih =>
    intro d h hall
    simp only [List.foldl_cons]
    exact ih (stepEvent d e)
      (lookupBinding_stepEvent_none d e c h (hall e (List.mem_cons_self e rest)))
      (fun e' he' => hall e' (List.mem_cons_of_mem e he'))

/-- C10: the daemon routes raw-bytes frames and pushed output by the
connection-generated client id, but a successful `AttachToSession` stores
the binding under the client id carried in the message (the pattern shadows
the connection id).  Hence if a connection with no binding attaches with a
message client id different from its connection id, the binding lands under
the message id (first conjunct), the connection id stays unbound through any
further traffic that does not bind it (second), every inbound raw-bytes
frame on the connection is dropped — delivered to no session and changing
nothing (third) — and the output pusher finds no session to push from
(fourth). -/
theorem c10_attach_binding_mismatch (d : PtyDaemon) (conn mcid sid : Uuid) (now now2 : Nat)
    (o o2 : Oracle) (evs : List OpEvent)
    (hnone : lookupBinding d.client_sessions conn = none)
    (hne : mcid ≠ conn)
    (hevs : ∀ e ∈ evs, ¬ bindsClient conn e) :
    (containsSession d.session_manager sid = true →
      lookupBinding (stepEvent d ⟨conn, .AttachToSession sid mcid, now, o⟩).client_sessions mcid
        = some sid) ∧
    lookupBinding (List.foldl stepEvent
        (stepEvent d ⟨conn, .AttachToSession sid mcid, now, o⟩) evs).client_sessions conn
      = none ∧
    handle_raw_bytes (List.foldl stepEvent
        (stepEvent d ⟨conn, .AttachToSession sid mcid, now, o⟩) evs) conn o2.sendOk now2
      = (List.foldl stepEvent (stepEvent d ⟨conn, .AttachToSession sid mcid, now, o⟩) evs,
         none) ∧
    output_push_poll (List.foldl stepEvent
        (stepEvent d ⟨conn, .AttachToSession sid mcid, now, o⟩) evs) conn o2.avail now2
      = (List.foldl stepEvent (stepEvent d ⟨conn, .AttachToSession sid mcid, now, o⟩) evs,
         none) := by
  have hstep : lookupBinding
      (stepEvent d ⟨conn, .AttachToSession sid mcid, now, o⟩).client_sessions conn = none :=
    lookupBinding_stepEvent_none d ⟨conn, .AttachToSession sid mcid, now, o⟩ conn hnone
      (by unfold bindsClient; exact hne)
  have hfold : lookupBinding (List.foldl stepEvent
      (stepEvent d ⟨conn, .AttachToSession sid mcid, now, o⟩) evs).client_sessions conn = none :=
    lookupBinding_fold_none evs conn _ hstep hevs
  refine ⟨?_, hfold, ?_, ?_⟩
  · intro hc
    simp only [stepEvent, handle_client_message, attach_to_session_ok _ sid mcid now hc]
    exact lookupBinding_insertBinding_self d.client_sessions mcid sid
  · unfold handle_raw_bytes
    rw [hfold]
  · unfold output_push_poll
    rw [hfold]

/-- C10 witness: a concrete instantiation of `c10_attach_binding_mismatch`:
connection 1 creates nothing, session 5 exists, the attach message carries
client id 2; the binding lands under 2, and connection 1's raw bytes are
dropped. -/
theorem c10_attach_binding_mismatch_witness :
    lookupBinding (stepEvent ⟨[(5, ⟨5, [], none, [], 0, 0⟩)], []⟩
      ⟨1, .AttachToSession 5 2, 0, ⟨true, true, true, none⟩⟩).client_sessions 2 = some 5 ∧
    handle_raw_bytes (List.foldl stepEvent (stepEvent ⟨[(5, ⟨5, [], none, [], 0, 0⟩)], []⟩
        ⟨1, .AttachToSession 5 2, 0, ⟨true, true, true, none⟩⟩)
        [⟨3, .ListSessions, 1, ⟨true, true, true, none⟩⟩]) 1 true 2
      = (List.foldl stepEvent (stepEvent ⟨[(5, ⟨5, [], none, [], 0, 0⟩)], []⟩
          ⟨1, .AttachToSession 5 2, 0, ⟨true, true, true, none⟩⟩)
          [⟨3, .ListSessions, 1, ⟨true, true, true, none⟩⟩], none) := by
  have h := c10_attach_binding_mismatch ⟨[(5, ⟨5, [], none, [], 0, 0⟩)], []⟩ 1 2 5 0 2
    ⟨true, true, true, none⟩ ⟨true, true, true, none⟩
    [⟨3, .ListSessions, 1, ⟨true, true, true, none⟩⟩]
    (by decide) (by decide)
    (by intro e he
        simp only [List.mem_singleton] at he
        rw [he]
        unfold bindsClient
        simp)
  exact ⟨h.1 (by decide), h.2.2.1⟩

/-! ## Codec lemmas: length prefix -/

theorem length_toBE4 (n : Nat) : (toBE4 n).length = 4 := rfl

theorem beU32_toBE4 (n : Nat) (h : n < 4294967296) : beU32 (toBE4 n) = n := by
  unfold toBE4 beU32
  simp only [Nat.mod_eq_of_lt h]
  omega

theorem drop4_toBE4 (n : Nat) (l : List Nat) : (toBE4 n ++ l).drop 4 = l :=
  List.drop_left' (length_toBE4 n)

theorem take4_toBE4 (n : Nat) (l : List Nat) : (toBE4 n ++ l).take 4 = toBE4 n :=
  List.take_left' (length_toBE4 n)

/-! ## Codec lemmas: UTF-8 -/

theorem utf8DecodeChar_encodeChar (c : Nat) (h : ValidScalar c) (rest : List Nat) :
    utf8DecodeChar (utf8EncodeChar c ++ rest) = some (c, rest) := by
  obtain ⟨h1, h2⟩ := h
  unfold utf8EncodeChar
  by_cases hA : c < 128
  · rw [if_pos hA]
    show utf8DecodeChar (c :: rest) = some (c, rest)
    simp only [utf8DecodeChar]
    rw [if_pos hA]
  · by_cases hB : c < 2048
    · rw [if_neg hA, if_pos hB]
      show utf8DecodeChar ((192 + c / 64) :: (128 + c % 64) :: rest) = some (c, rest)
      simp only [utf8DecodeChar]
      rw [if_neg (show ¬ 192 + c / 64 < 128 by omega),
        if_neg (show ¬ 192 + c / 64 < 192 by omega),
        if_pos (show 192 + c / 64 < 224 by omega),
        if_pos (show 128 ≤ 128 + c % 64 ∧ 128 + c % 64 < 192 by omega),
        if_pos (show 128 ≤ (192 + c / 64 - 192) * 64 + (128 + c % 64 - 128) by omega),
        show (192 + c / 64 - 192) * 64 + (128 + c % 64 - 128) = c by omega]
    · by_cases hC : c < 65536
      · rw [if_neg hA, if_neg hB, if_pos hC]
        show utf8DecodeChar ((224 + c / 4096) :: (128 + c / 64 % 64) :: (128 + c % 64) :: rest) =
          some (c, rest)
        simp only [utf8DecodeChar]
        rw [if_neg (show ¬ 224 + c / 4096 < 128 by omega),
          if_neg (show ¬ 224 + c / 4096 < 192 by omega),
          if_neg (show ¬ 224 + c / 4096 < 224 by omega),
          if_pos (show 224 + c / 4096 < 240 by omega),
          if_pos (show (128 ≤ 128 + c / 64 % 64 ∧ 128 + c / 64 % 64 < 192) ∧
            (128 ≤ 128 + c % 64 ∧ 128 + c % 64 < 192) by omega),
          if_pos (show 2048 ≤ ((224 + c / 4096 - 224) * 64 + (128 + c / 64 % 64 - 128)) * 64 +
              (128 + c % 64 - 128) ∧
            (((224 + c / 4096 - 224) * 64 + (128 + c / 64 % 64 - 128)) * 64 +
                (128 + c % 64 - 128) < 55296 ∨
              57344 ≤ ((224 + c / 4096 - 224) * 64 + (128 + c / 64 % 64 - 128)) * 64 +
                (128 + c % 64 - 128)) by omega),
          show ((224 + c / 4096 - 224) * 64 + (128 + c / 64 % 64 - 128)) * 64 +
            (128 + c % 64 - 128) = c by omega]
      · rw [if_neg hA, if_neg hB, if_neg hC]
        show utf8DecodeChar ((240 + c / 262144) :: (128 + c / 4096 % 64) ::
          (128 + c / 64 % 64) :: (128 + c % 64) :: rest) = some (c, rest)
        simp only [utf8DecodeChar]
        rw [if_neg (show ¬ 240 + c / 262144 < 128 by omega),
          if_neg (show ¬ 240 + c / 262144 < 192 by omega),
          if_neg (show ¬ 240 + c / 262144 < 224 by omega),
          if_neg (show ¬ 240 + c / 262144 < 240 by omega),
          if_pos (show 240 + c / 262144 < 248 by omega),
          if_pos (show (128 ≤ 128 + c / 4096 % 64 ∧ 128 + c / 4096 % 64 < 192) ∧
            (128 ≤ 128 + c / 64 % 64 ∧ 128 + c / 64 % 64 < 192) ∧
            (128 ≤ 128 + c % 64 ∧ 128 + c % 64 < 192) by omega),
          if_pos (show 65536 ≤ (((240 + c / 262144 - 240) * 64 + (128 + c / 4096 % 64 - 128)) *
              64 + (128 + c / 64 % 64 - 128)) * 64 + (128 + c % 64 - 128) ∧
            (((240 + c / 262144 - 240) * 64 + (128 + c / 4096 % 64 - 128)) * 64 +
              (128 + c / 64 % 64 - 128)) * 64 + (128 + c % 64 - 128) < 1114112 by omega),
          show (((240 + c / 262144 - 240) * 64 + (128 + c / 4096 % 64 - 128)) * 64 +
            (128 + c / 64 % 64 - 128)) * 64 + (128 + c % 64 - 128) = c by omega]

theorem utf8EncodeChar_ne_nil (c : Nat) : utf8EncodeChar c ≠ [] := by
  unfold utf8EncodeChar
  by_cases hA : c < 128
  · simp [hA]
  · by_cases hB : c < 2048
    · simp [hA, hB]
    · by_cases hC : c < 65536
      · simp [hA, hB, hC]
      · simp [hA, hB, hC]

theorem utf8DecodeAux_encode (s : Str) (h : ValidStr s) :
    ∀ fuel, (utf8Encode s).length ≤ fuel → utf8DecodeAux fuel (utf8Encode s) = some s := by
  induction s with
  | nil =>
    intro fuel _
    cases fuel <;> rfl
  | cons c cs ih =>
    intro fuel hf
    have hvc : ValidScalar c := h c (List.mem_cons_self c cs)
    have hvcs : ValidStr cs := fun x hx => h x (List.mem_cons_of_mem c hx)
    have hne : utf8EncodeChar c ≠ [] := utf8EncodeChar_ne_nil c
    cases fuel with
    | zero =>
      exfalso
      have : (utf8Encode (c :: cs)).length = 0 := Nat.le_zero.mp hf
      unfold utf8Encode at this
      rw [List.length_append] at this
      have := Nat.eq_zero_of_add_eq_zero_right this
      exact hne (List.length_eq_zero.mp this)
    | succ fuel =>
      show utf8DecodeAux (fuel + 1) (utf8Encode (c :: cs)) = some (c :: cs)
      unfold utf8Encode
      obtain ⟨b, bs, hb⟩ : ∃ b bs, utf8EncodeChar c = b :: bs := by
        cases he : utf8EncodeChar c with
        | nil => exact absurd he hne
        | cons b bs => exact ⟨b, bs, rfl⟩
      unfold utf8DecodeAux
      rw [hb, List.cons_append]
      rw [show utf8DecodeChar (b :: (bs ++ utf8Encode cs)) = some (c, utf8Encode cs) from by
        rw [← List.cons_append, ← hb]
        exact utf8DecodeChar_encodeChar c hvc (utf8Encode cs)]
      dsimp only
      rw [ih hvcs fuel (by
        unfold utf8Encode at hf
        rw [List.length_append, hb] at hf
        simp only [List.length_cons] at hf
        omega)]

theorem utf8Decode_encode (s : Str) (h : ValidStr s) :
    utf8Decode (utf8Encode s) = some s :=
  utf8DecodeAux_encode s h (utf8Encode s).length (Nat.le_refl _)

/-! ## Codec lemmas: hex digits, string escapes, numbers -/

theorem hexVal_hexDigit (d : Nat) (h : d < 16) : hexVal (hexDigit d) = some d := by
  unfold hexVal hexDigit
  by_cases hd : d < 10
  · rw [if_pos hd, if_pos (show 48 ≤ 48 + d ∧ 48 + d ≤ 57 by omega)]
    congr 1
    omega
  · rw [if_neg hd, if_neg (show ¬ (48 ≤ 87 + d ∧ 87 + d ≤ 57) by omega),
      if_pos (show 97 ≤ 87 + d ∧ 87 + d ≤ 102 by omega)]
    congr 1
    omega

theorem parseStrBody_escape (s : Str) (rest : List Nat) :
    parseStrBody (escapeStr s ++ 34 :: rest) = some (s, rest) := by
  induction s with
  | nil =>
    show parseStrBody (34 :: rest) = some ([], rest)
    rw [parseStrBody.eq_def]
    dsimp only
    rw [if_pos rfl]
  | cons c cs ih =>
    show parseStrBody ((escapeChar c ++ escapeStr cs) ++ 34 :: rest) = some (c :: cs, rest)
    rw [List.append_assoc]
    unfold escapeChar
    by_cases h34 : c = 34
    · subst h34
      rw [if_pos rfl]
      show parseStrBody (92 :: 34 :: (escapeStr cs ++ 34 :: rest)) = _
      rw [parseStrBody.eq_def]
      dsimp only
      rw [if_neg (by omega), if_pos rfl, if_neg (by omega),
        show unescape 34 = some 34 from rfl, ih]
    · rw [if_neg h34]
      by_cases h92 : c = 92
      · subst h92
        rw [if_pos rfl]
        show parseStrBody (92 :: 92 :: (escapeStr cs ++ 34 :: rest)) = _
        rw [parseStrBody.eq_def]
        dsimp only
        rw [if_neg (by omega), if_pos rfl, if_neg (by omega),
          show unescape 92 = some 92 from rfl, ih]
      · rw [if_neg h92]
        by_cases h8 : c = 8
        · subst h8
          rw [if_pos rfl]
          show parseStrBody (92 :: 98 :: (escapeStr cs ++ 34 :: rest)) = _
          rw [parseStrBody.eq_def]
          dsimp only
          rw [if_neg (by omega), if_pos rfl, if_neg (by omega),
            show unescape 98 = some 8 from rfl, ih]
        · rw [if_neg h8]
          by_cases h9 : c = 9
          · subst h9
            rw [if_pos rfl]
            show parseStrBody (92 :: 116 :: (escapeStr cs ++ 34 :: rest)) = _
            rw [parseStrBody.eq_def]
            dsimp only
            rw [if_neg (by omega), if_pos rfl, if_neg (by omega),
              show unescape 116 = some 9 from rfl, ih]
          · rw [if_neg h9]
            by_cases h10 : c = 10
            · subst h10
              rw [if_pos rfl]
              show parseStrBody (92 :: 110 :: (escapeStr cs ++ 34 :: rest)) = _
              rw [parseStrBody.eq_def]
              dsimp only
              rw [if_neg (by omega), if_pos rfl, if_neg (by omega),
                show unescape 110 = some 10 from rfl, ih]
            · rw [if_neg h10]
              by_cases h12 : c = 12
              · subst h12
                rw [if_pos rfl]
                show parseStrBody (92 :: 102 :: (escapeStr cs ++ 34 :: rest)) = _
                rw [parseStrBody.eq_def]
                dsimp only
                rw [if_neg (by omega), if_pos rfl, if_neg (by omega),
                  show unescape 102 = some 12 from rfl, ih]
              · rw [if_neg h12]
                by_cases h13 : c = 13
                · subst h13
                  rw [if_pos rfl]
                  show parseStrBody (92 :: 114 :: (escapeStr cs ++ 34 :: rest)) = _
                  rw [parseStrBody.eq_def]
                  dsimp only
                  rw [if_neg (by omega), if_pos rfl, if_neg (by omega),
                    show unescape 114 = some 13 from rfl, ih]
                · rw [if_neg h13]
                  by_cases hctl : c < 32
                  · rw [if_pos hctl]
                    show parseStrBody (92 :: 117 :: 48 :: 48 :: hexDigit (c / 16) ::
                      hexDigit (c % 16) :: (escapeStr cs ++ 34 :: rest)) = _
                    rw [parseStrBody.eq_def]
                    dsimp only
                    rw [if_neg (by omega), if_pos rfl, if_pos rfl,
                      show hexVal 48 = some 0 from rfl,
                      hexVal_hexDigit (c / 16) (by omega),
                      hexVal_hexDigit (c % 16) (by omega)]
                    dsimp only
                    rw [if_neg (show ¬ (55296 ≤ ((0 * 16 + 0) * 16 + c / 16) * 16 + c % 16 ∧
                        ((0 * 16 + 0) * 16 + c / 16) * 16 + c % 16 < 57344) by omega), ih]
                    rw [show ((0 * 16 + 0) * 16 + c / 16) * 16 + c % 16 = c by omega]
                  · rw [if_neg hctl]
                    show parseStrBody (c :: (escapeStr cs ++ 34 :: rest)) = _
                    rw [parseStrBody.eq_def]
                    dsimp only
                    rw [if_neg h34, if_neg h92, if_neg hctl, ih]


theorem natDigits_ne_nil (n : Nat) : natDigits n ≠ [] := by
  unfold natDigits
  by_cases h : n < 10
  · simp [h]
  · simp [h]

theorem natDigits_head (n : Nat) :
    ∃ c t, natDigits n = c :: t ∧ 48 ≤ c ∧ c ≤ 57 := by
  induction n using Nat.strong_induction_on with
  | _ n ih =>
    unfold natDigits
    by_cases h : n < 10
    · exact ⟨48 + n, [], by simp [h], by omega, by omega⟩
    · obtain ⟨c, t, hct, hc1, hc2⟩ := ih (n / 10) (Nat.div_lt_self (by omega) (by omega))
      exact ⟨c, t ++ [48 + n % 10], by simp [h, hct], hc1, hc2⟩

theorem parseNumAux_stop (acc : Nat) (rest : List Nat) (h : headNotDigit rest) :
    parseNumAux acc rest = (acc, rest) := by
  cases rest with
  | nil => rfl
  | cons c r =>
    unfold parseNumAux
    rw [if_neg h]

theorem parseNumAux_digits (n : Nat) :
    ∀ acc rest, parseNumAux acc (natDigits n ++ rest) =
      parseNumAux (acc * 10 ^ (natDigits n).length + n) rest := by
  induction n using Nat.strong_induction_on with
  | _ n ih =>
    intro acc rest
    by_cases h : n < 10
    · rw [show natDigits n = [48 + n] from by unfold natDigits; simp [h]]
      show parseNumAux acc ((48 + n) :: rest) = _
      conv_lhs => unfold parseNumAux
      rw [if_pos (by omega)]
      congr 1
      simp only [List.length_cons, List.length_nil, zero_add, pow_one]
      omega
    · rw [show natDigits n = natDigits (n / 10) ++ [48 + n % 10] from by
        conv_lhs => unfold natDigits
        simp [h]]
      rw [List.append_assoc]
      rw [ih (n / 10) (Nat.div_lt_self (by omega) (by omega)) acc ([48 + n % 10] ++ rest)]
      show parseNumAux _ ((48 + n % 10) :: rest) = _
      conv_lhs => unfold parseNumAux
      rw [if_pos (by omega)]
      congr 1
      rw [List.length_append, List.length_cons, List.length_nil, pow_add, pow_one, ← mul_assoc]
      generalize acc * 10 ^ (natDigits (n / 10)).length = m
      omega

theorem natDigits_all_digits (n : Nat) : ∀ c ∈ natDigits n, 48 ≤ c ∧ c ≤ 57 := by
  induction n using Nat.strong_induction_on with
  | _ n ih =>
    intro c hc
    unfold natDigits at hc
    by_cases h : n < 10
    · rw [dif_pos h] at hc
      simp only [List.mem_singleton] at hc
      omega
    · rw [dif_neg h] at hc
      rcases List.mem_append.mp hc with h1 | h2
      · exact ih (n / 10) (Nat.div_lt_self (by omega) (by omega)) c h1
      · simp only [List.mem_singleton] at h2
        omega

theorem renderVal_head (v : Json) :
    ∃ c t, renderVal v = c :: t ∧
      (c = 110 ∨ c = 34 ∨ (48 ≤ c ∧ c ≤ 57) ∨ c = 91 ∨ c = 123) := by
  cases v with
  | null => exact ⟨110, [117, 108, 108], by simp [renderVal], by omega⟩
  | str s => exact ⟨34, escapeStr s ++ [34], by simp [renderVal, renderStr], by omega⟩
  | num n =>
    obtain ⟨c, t, hct, h1, h2⟩ := natDigits_head n
    exact ⟨c, t, by rw [show renderVal (.num n) = natDigits n from by simp [renderVal], hct],
      by omega⟩
  | arr elems =>
    cases elems with
    | nil => exact ⟨91, [93], by simp [renderVal], by omega⟩
    | cons v vs => exact ⟨91, renderElems v vs ++ [93], by simp [renderVal], by omega⟩
  | obj members =>
    cases members with
    | nil => exact ⟨123, [125], by simp [renderVal], by omega⟩
    | cons kv kvs => exact ⟨123, renderMembers kv kvs ++ [125], by simp [renderVal], by omega⟩


theorem numGuard_cons_notdigit (v : Json) (c : Nat) (rest : List Nat)
    (h : ¬ (48 ≤ c ∧ c ≤ 57)) : numGuard v (c :: rest) := by
  cases v <;> first
    | exact trivial
    | exact h

theorem fuelVal_pos (v : Json) : 1 ≤ fuelVal v := by
  cases v with
  | null => simp [fuelVal]
  | str s => simp [fuelVal]
  | num n => simp [fuelVal]
  | arr elems => cases elems <;> simp [fuelVal]
  | obj members => cases members <;> simp [fuelVal]

theorem fuelElems_pos (v : Json) (vs : List Json) : 1 ≤ fuelElems v vs := by
  cases vs <;> (simp [fuelElems]; try omega)

theorem fuelMembers_pos (kv : Str × Json) (kvs : List (Str × Json)) :
    1 ≤ fuelMembers kv kvs := by
  obtain ⟨k, v⟩ := kv
  cases kvs <;> (simp [fuelMembers]; try omega)

theorem renderElems_head (v : Json) (vs : List Json) :
    ∃ c t, renderElems v vs = c :: t ∧
      (c = 110 ∨ c = 34 ∨ (48 ≤ c ∧ c ≤ 57) ∨ c = 91 ∨ c = 123) := by
  obtain ⟨c, t, hct, hc⟩ := renderVal_head v
  cases vs with
  | nil => exact ⟨c, t, by rw [show renderElems v [] = renderVal v from by simp [renderElems],
      hct], hc⟩
  | cons w ws =>
    exact ⟨c, t ++ 44 :: renderElems w ws,
      by rw [show renderElems v (w :: ws) = renderVal v ++ 44 :: renderElems w ws from by
          simp [renderElems], hct]
         rfl, hc⟩

theorem renderMembers_head (kv : Str × Json) (kvs : List (Str × Json)) :
    ∃ t, renderMembers kv kvs = 34 :: t := by
  obtain ⟨k, v⟩ := kv
  cases kvs with
  | nil =>
    exact ⟨escapeStr k ++ [34] ++ 58 :: renderVal v,
      by rw [show renderMembers (k, v) [] = renderStr k ++ 58 :: renderVal v from by
          simp [renderMembers], renderStr]
         simp⟩
  | cons kv2 kvs2 =>
    exact ⟨escapeStr k ++ [34] ++ 58 :: (renderVal v ++ 44 :: renderMembers kv2 kvs2),
      by rw [show renderMembers (k, v) (kv2 :: kvs2) =
            renderStr k ++ 58 :: renderVal v ++ 44 :: renderMembers kv2 kvs2 from by
          simp [renderMembers], renderStr]
         simp⟩

/-- The parser inverts the renderer: rendered values parse back exactly,
leaving the trailing input untouched (numbers need a non-digit follower;
inside arrays and objects the separators provide it). -/
theorem parse_render_all : ∀ fuel : Nat,
    (∀ v rest, fuelVal v ≤ fuel → numGuard v rest →
      parseVal fuel (renderVal v ++ rest) = some (v, rest)) ∧
    (∀ v vs rest, fuelElems v vs ≤ fuel →
      parseElems fuel (renderElems v vs ++ 93 :: rest) = some (v :: vs, rest)) ∧
    (∀ kv kvs rest, fuelMembers kv kvs ≤ fuel →
      parseMembers fuel (renderMembers kv kvs ++ 125 :: rest) = some (kv :: kvs, rest)) := by
  intro fuel
  induction fuel with
  | zero =>
    refine ⟨?_, ?_, ?_⟩
    · intro v rest hf _
      exact absurd hf (by have := fuelVal_pos v; omega)
    · intro v vs rest hf
      exact absurd hf (by have := fuelElems_pos v vs; omega)
    · intro kv kvs rest hf
      exact absurd hf (by have := fuelMembers_pos kv kvs; omega)
  | succ fuel ih =>
    obtain ⟨ihV, ihE, ihM⟩ := ih
    refine ⟨?_, ?_, ?_⟩
    · intro v rest hf hg
      cases v with
      | null =>
        rw [show renderVal .null = [110, 117, 108, 108] from by simp [renderVal]]
        simp only [List.cons_append, List.nil_append]
        rw [parseVal.eq_def]
        dsimp only
        rw [if_pos rfl, if_pos ⟨rfl, rfl, rfl⟩]
      | str s =>
        rw [show renderVal (.str s) = 34 :: (escapeStr s ++ [34]) from by
          simp [renderVal, renderStr]]
        simp only [List.cons_append, List.append_assoc, List.nil_append]
        rw [parseVal.eq_def]
        dsimp only
        rw [if_neg (by omega), if_pos rfl, parseStrBody_escape]
      | num n =>
        obtain ⟨c0, t0, hct, hd1, hd2⟩ := natDigits_head n
        have hng : headNotDigit rest := hg
        have hpn : parseNumAux (c0 - 48) (t0 ++ rest) = (n, rest) := by
          have h1 : parseNumAux 0 (natDigits n ++ rest) = (n, rest) := by
            rw [parseNumAux_digits n 0 rest, zero_mul, zero_add, parseNumAux_stop n rest hng]
          rw [hct, List.cons_append] at h1
          unfold parseNumAux at h1
          rw [if_pos ⟨hd1, hd2⟩, zero_mul, zero_add] at h1
          exact h1
        rw [show renderVal (.num n) = natDigits n from by simp [renderVal], hct]
        simp only [List.cons_append]
        rw [parseVal.eq_def]
        dsimp only
        rw [if_neg (by omega), if_neg (by omega), if_neg (by omega), if_neg (by omega),
          if_pos ⟨hd1, hd2⟩]
        rw [hpn]
      | arr elems =>
        cases elems with
        | nil =>
          rw [show renderVal (.arr []) = [91, 93] from by simp [renderVal]]
          simp only [List.cons_append, List.nil_append]
          rw [parseVal.eq_def]
          dsimp only
          rw [if_neg (by omega), if_neg (by omega), if_pos rfl, if_pos rfl]
        | cons v vs =>
          have hfe : fuelElems v vs ≤ fuel := by
            have : fuelVal (.arr (v :: vs)) = 1 + fuelElems v vs := by simp [fuelVal]
            omega
          obtain ⟨c0, t0, he, hc0⟩ := renderElems_head v vs
          rw [show renderVal (.arr (v :: vs)) = 91 :: (renderElems v vs ++ [93]) from by
            simp [renderVal]]
          simp only [List.cons_append, List.append_assoc, List.nil_append]
          rw [he]
          simp only [List.cons_append]
          rw [parseVal.eq_def]
          dsimp only
          rw [if_neg (by omega), if_neg (by omega), if_pos rfl, if_neg (show ¬ c0 = 93 by omega)]
          rw [show c0 :: (t0 ++ 93 :: rest) = renderElems v vs ++ 93 :: rest from by
            rw [he, List.cons_append]]
          rw [ihE v vs rest hfe]
      | obj members =>
        cases members with
        | nil =>
          rw [show renderVal (.obj []) = [123, 125] from by simp [renderVal]]
          simp only [List.cons_append, List.nil_append]
          rw [parseVal.eq_def]
          dsimp only
          rw [if_neg (by omega), if_neg (by omega), if_neg (by omega), if_pos rfl, if_pos rfl]
        | cons kv kvs =>
          have hfm : fuelMembers kv kvs ≤ fuel := by
            have : fuelVal (.obj (kv :: kvs)) = 1 + fuelMembers kv kvs := by simp [fuelVal]
            omega
          obtain ⟨t0, he⟩ := renderMembers_head kv kvs
          rw [show renderVal (.obj (kv :: kvs)) = 123 :: (renderMembers kv kvs ++ [125]) from by
            simp [renderVal]]
          simp only [List.cons_append, List.append_assoc, List.nil_append]
          rw [he]
          simp only [List.cons_append]
          rw [parseVal.eq_def]
          dsimp only
          rw [if_neg (by omega), if_neg (by omega), if_neg (by omega), if_pos rfl,
            if_neg (by omega)]
          rw [show (34 : Nat) :: (t0 ++ 125 :: rest) = renderMembers kv kvs ++ 125 :: rest from by
            rw [he, List.cons_append]]
          rw [ihM kv kvs rest hfm]
    · intro v vs rest hfe
      cases vs with
      | nil =>
        have hfv : fuelVal v ≤ fuel := by
          have : fuelElems v [] = 1 + fuelVal v := by simp [fuelElems]
          omega
        rw [show renderElems v [] = renderVal v from by simp [renderElems]]
        rw [parseElems.eq_def]
        dsimp only
        rw [ihV v (93 :: rest) hfv (numGuard_cons_notdigit v 93 rest (by omega))]
        dsimp only
        rw [if_neg (by omega), if_pos rfl]
      | cons w ws =>
        have hfv : fuelVal v ≤ fuel := by
          have : fuelElems v (w :: ws) = 1 + fuelVal v + fuelElems w ws := by simp [fuelElems]
          omega
        have hfe2 : fuelElems w ws ≤ fuel := by
          have : fuelElems v (w :: ws) = 1 + fuelVal v + fuelElems w ws := by simp [fuelElems]
          omega
        rw [show renderElems v (w :: ws) = renderVal v ++ 44 :: renderElems w ws from by
          simp [renderElems]]
        simp only [List.append_assoc, List.cons_append]
        rw [parseElems.eq_def]
        dsimp only
        rw [ihV v (44 :: (renderElems w ws ++ 93 :: rest)) hfv
          (numGuard_cons_notdigit v 44 _ (by omega))]
        dsimp only
        rw [if_pos rfl, ihE w ws rest hfe2]
    · intro kv kvs rest hfm
      obtain ⟨k, v⟩ := kv
      cases kvs with
      | nil =>
        have hfv : fuelVal v ≤ fuel := by
          have : fuelMembers (k, v) [] = 1 + fuelVal v := by simp [fuelMembers]
          omega
        rw [show renderMembers (k, v) [] = renderStr k ++ 58 :: renderVal v from by
          simp [renderMembers], renderStr]
        simp only [List.cons_append, List.append_assoc, List.nil_append]
        rw [parseMembers.eq_def]
        dsimp only
        rw [if_pos rfl, parseStrBody_escape]
        dsimp only
        rw [if_pos rfl, ihV v (125 :: rest) hfv (numGuard_cons_notdigit v 125 rest (by omega))]
        dsimp only
        rw [if_neg (by omega), if_pos rfl]
      | cons kv2 kvs2 =>
        have hfv : fuelVal v ≤ fuel := by
          have : fuelMembers (k, v) (kv2 :: kvs2) = 1 + fuelVal v + fuelMembers kv2 kvs2 := by
            simp [fuelMembers]
          omega
        have hfm2 : fuelMembers kv2 kvs2 ≤ fuel := by
          have : fuelMembers (k, v) (kv2 :: kvs2) = 1 + fuelVal v + fuelMembers kv2 kvs2 := by
            simp [fuelMembers]
          omega
        rw [show renderMembers (k, v) (kv2 :: kvs2) =
            renderStr k ++ 58 :: renderVal v ++ 44 :: renderMembers kv2 kvs2 from by
          simp [renderMembers], renderStr]
        simp only [List.cons_append, List.append_assoc, List.nil_append]
        rw [parseMembers.eq_def]
        dsimp only
        rw [if_pos rfl, parseStrBody_escape]
        dsimp only
        rw [if_pos rfl, ihV v (44 :: (renderMembers kv2 kvs2 ++ 125 :: rest)) hfv
          (numGuard_cons_notdigit v 44 _ (by omega))]
        dsimp only
        rw [if_pos rfl, ihM kv2 kvs2 rest hfm2]

mutual

theorem fuelVal_le_renderLen (v : Json) : fuelVal v ≤ (renderVal v).length := by
  cases v with
  | null => simp [fuelVal, renderVal]
  | str s => simp [fuelVal, renderVal, renderStr]
  | num n =>
    rw [show renderVal (.num n) = natDigits n from by simp [renderVal]]
    have h1 : fuelVal (.num n) = 1 := by simp [fuelVal]
    have h2 : natDigits n ≠ [] := natDigits_ne_nil n
    rw [h1]
    cases hd : natDigits n with
    | nil => exact absurd hd h2
    | cons c t => simp
  | arr elems =>
    cases elems with
    | nil => simp [fuelVal, renderVal]
    | cons v vs =>
      have h := fuelElems_le_renderLen v vs
      rw [show renderVal (.arr (v :: vs)) = 91 :: (renderElems v vs ++ [93]) from by
        simp [renderVal]]
      rw [show fuelVal (.arr (v :: vs)) = 1 + fuelElems v vs from by simp [fuelVal]]
      simp only [List.length_cons, List.length_append, List.length_singleton]
      omega
  | obj members =>
    cases members with
    | nil => simp [fuelVal, renderVal]
    | cons kv kvs =>
      have h := fuelMembers_le_renderLen kv kvs
      rw [show renderVal (.obj (kv :: kvs)) = 123 :: (renderMembers kv kvs ++ [125]) from by
        simp [renderVal]]
      rw [show fuelVal (.obj (kv :: kvs)) = 1 + fuelMembers kv kvs from by simp [fuelVal]]
      simp only [List.length_cons, List.length_append, List.length_singleton]
      omega
  termination_by sizeOf v

theorem fuelElems_le_renderLen (v : Json) (vs : List Json) :
    fuelElems v vs ≤ (renderElems v vs).length + 1 := by
  cases vs with
  | nil =>
    have h := fuelVal_le_renderLen v
    rw [show renderElems v [] = renderVal v from by simp [renderElems],
      show fuelElems v [] = 1 + fuelVal v from by simp [fuelElems]]
    omega
  | cons w ws =>
    have h1 := fuelVal_le_renderLen v
    have h2 := fuelElems_le_renderLen w ws
    rw [show renderElems v (w :: ws) = renderVal v ++ 44 :: renderElems w ws from by
      simp [renderElems]]
    rw [show fuelElems v (w :: ws) = 1 + fuelVal v + fuelElems w ws from by simp [fuelElems]]
    simp only [List.length_append, List.length_cons]
    omega
  termination_by 1 + sizeOf v + sizeOf vs

theorem fuelMembers_le_renderLen (kv : Str × Json) (kvs : List (Str × Json)) :
    fuelMembers kv kvs ≤ (renderMembers kv kvs).length + 1 := by
  obtain ⟨k, v⟩ := kv
  cases kvs with
  | nil =>
    have h := fuelVal_le_renderLen v
    rw [show renderMembers (k, v) [] = renderStr k ++ 58 :: renderVal v from by
      simp [renderMembers]]
    rw [show fuelMembers (k, v) [] = 1 + fuelVal v from by simp [fuelMembers]]
    simp only [List.length_append, List.length_cons]
    omega
  | cons kv2 kvs2 =>
    have h1 := fuelVal_le_renderLen v
    have h2 := fuelMembers_le_renderLen kv2 kvs2
    rw [show renderMembers (k, v) (kv2 :: kvs2) =
        renderStr k ++ 58 :: renderVal v ++ 44 :: renderMembers kv2 kvs2 from by
      simp [renderMembers]]
    rw [show fuelMembers (k, v) (kv2 :: kvs2) = 1 + fuelVal v + fuelMembers kv2 kvs2 from by
      simp [fuelMembers]]
    simp only [List.length_append, List.length_cons]
    omega
  termination_by 1 + sizeOf kv + sizeOf kvs

end

theorem validScalar_ascii (c : Nat) (h : c < 128) : ValidScalar c := ⟨by omega, by omega⟩

theorem escapeChar_valid (c : Nat) (h : ValidScalar c) : ∀ x ∈ escapeChar c, ValidScalar x := by
  intro x hx
  unfold escapeChar at hx
  by_cases h34 : c = 34
  · rw [if_pos h34] at hx
    simp only [List.mem_cons, List.not_mem_nil, or_false] at hx
    exact ⟨by omega, by omega⟩
  · rw [if_neg h34] at hx
    by_cases h92 : c = 92
    · rw [if_pos h92] at hx
      simp only [List.mem_cons, List.not_mem_nil, or_false] at hx
      exact ⟨by omega, by omega⟩
    · rw [if_neg h92] at hx
      by_cases h8 : c = 8
      · rw [if_pos h8] at hx
        simp only [List.mem_cons, List.not_mem_nil, or_false] at hx
        exact ⟨by omega, by omega⟩
      · rw [if_neg h8] at hx
        by_cases h9 : c = 9
        · rw [if_pos h9] at hx
          simp only [List.mem_cons, List.not_mem_nil, or_false] at hx
          exact ⟨by omega, by omega⟩
        · rw [if_neg h9] at hx
          by_cases h10 : c = 10
          · rw [if_pos h10] at hx
            simp only [List.mem_cons, List.not_mem_nil, or_false] at hx
            exact ⟨by omega, by omega⟩
          · rw [if_neg h10] at hx
            by_cases h12 : c = 12
            · rw [if_pos h12] at hx
              simp only [List.mem_cons, List.not_mem_nil, or_false] at hx
              exact ⟨by omega, by omega⟩
            · rw [if_neg h12] at hx
              by_cases h13 : c = 13
              · rw [if_pos h13] at hx
                simp only [List.mem_cons, List.not_mem_nil, or_false] at hx
                exact ⟨by omega, by omega⟩
              · rw [if_neg h13] at hx
                by_cases hctl : c < 32
                · rw [if_pos hctl] at hx
                  have hh1 : ValidScalar (hexDigit (c / 16)) := by
                    unfold hexDigit
                    by_cases hq : c / 16 < 10
                    · rw [if_pos hq]; exact ⟨by omega, by omega⟩
                    · rw [if_neg hq]; exact ⟨by omega, by omega⟩
                  have hh2 : ValidScalar (hexDigit (c % 16)) := by
                    unfold hexDigit
                    by_cases hq : c % 16 < 10
                    · rw [if_pos hq]; exact ⟨by omega, by omega⟩
                    · rw [if_neg hq]; exact ⟨by omega, by omega⟩
                  simp only [List.mem_cons, List.not_mem_nil, or_false] at hx
                  rcases hx with h1 | h1 | h1 | h1 | h1 | h1
                  · subst h1; exact ⟨by omega, by omega⟩
                  · subst h1; exact ⟨by omega, by omega⟩
                  · subst h1; exact ⟨by omega, by omega⟩
                  · subst h1; exact ⟨by omega, by omega⟩
                  · subst h1; exact hh1
                  · subst h1; exact hh2
                · rw [if_neg hctl] at hx
                  simp only [List.mem_cons, List.not_mem_nil, or_false] at hx
                  subst hx
                  exact h

theorem escapeStr_valid (s : Str) (h : ValidStr s) : ∀ x ∈ escapeStr s, ValidScalar x := by
  induction s with
  | nil => intro x hx; cases hx
  | cons c cs ih =>
    intro x hx
    rcases List.mem_append.mp hx with h1 | h2
    · exact escapeChar_valid c (h c (List.mem_cons_self c cs)) x h1
    · exact ih (fun y hy => h y (List.mem_cons_of_mem c hy)) x h2

theorem renderStr_valid (s : Str) (h : ValidStr s) : ∀ x ∈ renderStr s, ValidScalar x := by
  intro x hx
  unfold renderStr at hx
  simp only [List.mem_cons] at hx
  rcases hx with h34 | hx
  · subst h34; exact ⟨by omega, by omega⟩
  · rcases List.mem_append.mp hx with h1 | h2
    · exact escapeStr_valid s h x h1
    · simp only [List.mem_cons, List.not_mem_nil, or_false] at h2
      subst h2
      exact ⟨by omega, by omega⟩

theorem render_valid_all : ∀ fuel : Nat,
    (∀ v, fuelVal v ≤ fuel → wfVal v → ∀ x ∈ renderVal v, ValidScalar x) ∧
    (∀ v vs, fuelElems v vs ≤ fuel → wfElems v vs → ∀ x ∈ renderElems v vs, ValidScalar x) ∧
    (∀ kv kvs, fuelMembers kv kvs ≤ fuel → wfMembers kv kvs →
      ∀ x ∈ renderMembers kv kvs, ValidScalar x) := by
  intro fuel
  induction fuel with
  | zero =>
    refine ⟨?_, ?_, ?_⟩
    · intro v hf
      exact absurd hf (by have := fuelVal_pos v; omega)
    · intro v vs hf
      exact absurd hf (by have := fuelElems_pos v vs; omega)
    · intro kv kvs hf
      exact absurd hf (by have := fuelMembers_pos kv kvs; omega)
  | succ fuel ih =>
    obtain ⟨ihV, ihE, ihM⟩ := ih
    refine ⟨?_, ?_, ?_⟩
    · intro v hf hwf
      cases v with
      | null =>
        intro x hx
        rw [show renderVal .null = [110, 117, 108, 108] from by simp [renderVal]] at hx
        simp only [List.mem_cons, List.not_mem_nil, or_false] at hx
        exact ⟨by omega, by omega⟩
      | str s =>
        intro x hx
        rw [show renderVal (.str s) = renderStr s from by simp [renderVal]] at hx
        exact renderStr_valid s (by simpa [wfVal] using hwf) x hx
      | num n =>
        intro x hx
        rw [show renderVal (.num n) = natDigits n from by simp [renderVal]] at hx
        have := natDigits_all_digits n x hx
        exact ⟨by omega, by omega⟩
      | arr elems =>
        cases elems with
        | nil =>
          intro x hx
          rw [show renderVal (.arr []) = [91, 93] from by simp [renderVal]] at hx
          simp only [List.mem_cons, List.not_mem_nil, or_false] at hx
          exact ⟨by omega, by omega⟩
        | cons v vs =>
          have hfe : fuelElems v vs ≤ fuel := by
            have : fuelVal (.arr (v :: vs)) = 1 + fuelElems v vs := by simp [fuelVal]
            omega
          intro x hx
          rw [show renderVal (.arr (v :: vs)) = 91 :: (renderElems v vs ++ [93]) from by
            simp [renderVal]] at hx
          simp only [List.mem_cons] at hx
          rcases hx with h | hx
          · subst h; exact ⟨by omega, by omega⟩
          · rcases List.mem_append.mp hx with h1 | h2
            · exact ihE v vs hfe (by simpa [wfVal] using hwf) x h1
            · simp only [List.mem_cons, List.not_mem_nil, or_false] at h2
              subst h2
              exact ⟨by omega, by omega⟩
      | obj members =>
        cases members with
        | nil =>
          intro x hx
          rw [show renderVal (.obj []) = [123, 125] from by simp [renderVal]] at hx
          simp only [List.mem_cons, List.not_mem_nil, or_false] at hx
          exact ⟨by omega, by omega⟩
        | cons kv kvs =>
          have hfm : fuelMembers kv kvs ≤ fuel := by
            have : fuelVal (.obj (kv :: kvs)) = 1 + fuelMembers kv kvs := by simp [fuelVal]
            omega
          intro x hx
          rw [show renderVal (.obj (kv :: kvs)) = 123 :: (renderMembers kv kvs ++ [125]) from by
            simp [renderVal]] at hx
          simp only [List.mem_cons] at hx
          rcases hx with h | hx
          · subst h; exact ⟨by omega, by omega⟩
          · rcases List.mem_append.mp hx with h1 | h2
            · exact ihM kv kvs hfm (by simpa [wfVal] using hwf) x h1
            · simp only [List.mem_cons, List.not_mem_nil, or_false] at h2
              subst h2
              exact ⟨by omega, by omega⟩
    · intro v vs hf hwf
      cases vs with
      | nil =>
        have hfv : fuelVal v ≤ fuel := by
          have : fuelElems v [] = 1 + fuelVal v := by simp [fuelElems]
          omega
        intro x hx
        rw [show renderElems v [] = renderVal v from by simp [renderElems]] at hx
        exact ihV v hfv (by simpa [wfElems] using hwf) x hx
      | cons w ws =>
        have hfv : fuelVal v ≤ fuel := by
          have : fuelElems v (w :: ws) = 1 + fuelVal v + fuelElems w ws := by simp [fuelElems]
          omega
        have hfe2 : fuelElems w ws ≤ fuel := by
          have : fuelElems v (w :: ws) = 1 + fuelVal v + fuelElems w ws := by simp [fuelElems]
          omega
        intro x hx
        rw [show renderElems v (w :: ws) = renderVal v ++ 44 :: renderElems w ws from by
          simp [renderElems]] at hx
        have hwf2 : wfVal v ∧ wfElems w ws := by simpa [wfElems] using hwf
        rcases List.mem_append.mp hx with h1 | h2
        · exact ihV v hfv hwf2.1 x h1
        · simp only [List.mem_cons] at h2
          rcases h2 with h | h2
          · subst h; exact ⟨by omega, by omega⟩
          · exact ihE w ws hfe2 hwf2.2 x h2
    · intro kv kvs hf hwf
      obtain ⟨k, v⟩ := kv
      cases kvs with
      | nil =>
        have hfv : fuelVal v ≤ fuel := by
          have : fuelMembers (k, v) [] = 1 + fuelVal v := by simp [fuelMembers]
          omega
        intro x hx
        rw [show renderMembers (k, v) [] = renderStr k ++ 58 :: renderVal v from by
          simp [renderMembers]] at hx
        have hwf2 : ValidStr k ∧ wfVal v := by simpa [wfMembers] using hwf
        rcases List.mem_append.mp hx with h1 | h2
        · exact renderStr_valid k hwf2.1 x h1
        · simp only [List.mem_cons] at h2
          rcases h2 with h | h2
          · subst h; exact ⟨by omega, by omega⟩
          · exact ihV v hfv hwf2.2 x h2
      | cons kv2 kvs2 =>
        have hfv : fuelVal v ≤ fuel := by
          have : fuelMembers (k, v) (kv2 :: kvs2) = 1 + fuelVal v + fuelMembers kv2 kvs2 := by
            simp [fuelMembers]
          omega
        have hfm2 : fuelMembers kv2 kvs2 ≤ fuel := by
          have : fuelMembers (k, v) (kv2 :: kvs2) = 1 + fuelVal v + fuelMembers kv2 kvs2 := by
            simp [fuelMembers]
          omega
        intro x hx
        rw [show renderMembers (k, v) (kv2 :: kvs2) =
            (renderStr k ++ 58 :: renderVal v) ++ 44 :: renderMembers kv2 kvs2 from by
          simp [renderMembers]] at hx
        have hwf2 : (ValidStr k ∧ wfVal v) ∧ wfMembers kv2 kvs2 := by simpa [wfMembers] using hwf
        rcases List.mem_append.mp hx with hx1 | hx2
        · rcases List.mem_append.mp hx1 with h1 | h2
          · exact renderStr_valid k hwf2.1.1 x h1
          · simp only [List.mem_cons] at h2
            rcases h2 with h | h2
            · subst h; exact ⟨by omega, by omega⟩
            · exact ihV v hfv hwf2.1.2 x h2
        · simp only [List.mem_cons] at hx2
          rcases hx2 with h | hx3
          · subst h; exact ⟨by omega, by omega⟩
          · exact ihM kv2 kvs2 hfm2 hwf2.2 x hx3

theorem renderVal_valid (v : Json) (hwf : wfVal v) : ∀ x ∈ renderVal v, ValidScalar x :=
  (render_valid_all (fuelVal v)).1 v (Nat.le_refl _) hwf

/-! ## Codec lemmas: UUID strings -/

theorem length_toHexFixed (w : Nat) : ∀ n, (toHexFixed w n).length = w := by
  induction w with
  | zero => intro n; rfl
  | succ w ih =>
    intro n
    show (toHexFixed w (n / 16) ++ [hexDigit (n % 16)]).length = w + 1
    rw [List.length_append, ih (n / 16)]
    rfl

theorem parseHexDigits_cons (acc c : Nat) (r : List Nat) :
    parseHexDigits acc (c :: r) =
      match hexVal c with
      | some d => parseHexDigits (acc * 16 + d) r
      | none => none := rfl

theorem parseHexDigits_toHexFixed (w : Nat) :
    ∀ n acc rest, n < 16 ^ w →
      parseHexDigits acc (toHexFixed w n ++ rest) = parseHexDigits (acc * 16 ^ w + n) rest := by
  induction w with
  | zero =>
    intro n acc rest hn
    have : n = 0 := by omega
    subst this
    show parseHexDigits acc rest = _
    rw [pow_zero]
    congr 1
    omega
  | succ w ih =>
    intro n acc rest hn
    show parseHexDigits acc ((toHexFixed w (n / 16) ++ [hexDigit (n % 16)]) ++ rest) = _
    rw [List.append_assoc]
    rw [ih (n / 16) acc ([hexDigit (n % 16)] ++ rest)
      (Nat.div_lt_of_lt_mul (by rw [← pow_succ']; exact hn))]
    show parseHexDigits _ (hexDigit (n % 16) :: rest) = _
    rw [parseHexDigits_cons, hexVal_hexDigit (n % 16) (by omega)]
    show parseHexDigits ((acc * 16 ^ w + n / 16) * 16 + n % 16) rest = _
    congr 1
    rw [pow_succ, ← mul_assoc]
    generalize acc * 16 ^ w = m
    omega

theorem toHexFixed_lt128 (w : Nat) : ∀ n, ∀ c ∈ toHexFixed w n, c < 128 := by
  induction w with
  | zero => intro n c hc; cases hc
  | succ w ih =>
    intro n c hc
    rcases List.mem_append.mp hc with h1 | h2
    · exact ih (n / 16) c h1
    · simp only [List.mem_cons, List.not_mem_nil, or_false] at h2
      subst h2
      unfold hexDigit
      by_cases h : n % 16 < 10
      · rw [if_pos h]; omega
      · rw [if_neg h]; omega

theorem uuidToStr_valid (u : Uuid) : ValidStr (uuidToStr u) := by
  intro c hc
  unfold uuidToStr at hc
  have hhex : ∀ x ∈ toHexFixed 32 u, x < 128 := toHexFixed_lt128 32 u
  have hin : c < 128 := by
    generalize hg : toHexFixed 32 u = hx at hhex hc
    rcases List.mem_append.mp hc with h | h
    · exact hhex c (List.mem_of_mem_take h)
    · simp only [List.mem_cons] at h
      rcases h with h | h
      · omega
      · rcases List.mem_append.mp h with h | h
        · exact hhex c (List.mem_of_mem_drop (List.mem_of_mem_take h))
        · simp only [List.mem_cons] at h
          rcases h with h | h
          · omega
          · rcases List.mem_append.mp h with h | h
            · exact hhex c (List.mem_of_mem_drop (List.mem_of_mem_drop (List.mem_of_mem_take h)))
            · simp only [List.mem_cons] at h
              rcases h with h | h
              · omega
              · rcases List.mem_append.mp h with h | h
                · exact hhex c (List.mem_of_mem_drop (List.mem_of_mem_drop
                    (List.mem_of_mem_drop (List.mem_of_mem_take h))))
                · simp only [List.mem_cons] at h
                  rcases h with h | h
                  · omega
                  · exact hhex c (List.mem_of_mem_drop (List.mem_of_mem_drop
                      (List.mem_of_mem_drop (List.mem_of_mem_drop h))))
  exact ⟨by omega, by omega⟩

theorem uuidFromStr_uuidToStr (u : Uuid) (h : uuidWF u) : uuidFromStr (uuidToStr u) = some u := by
  unfold uuidToStr uuidFromStr
  have hlen : (toHexFixed 32 u).length = 32 := length_toHexFixed 32 u
  have hparse : parseHexDigits 0 (toHexFixed 32 u) = some u := by
    rw [show parseHexDigits 0 (toHexFixed 32 u) =
        parseHexDigits 0 (toHexFixed 32 u ++ []) from by rw [List.append_nil]]
    rw [parseHexDigits_toHexFixed 32 u 0 [] (by
      have he : (16 : Nat) ^ 32 = 2 ^ 128 := by norm_num
      unfold uuidWF at h
      rw [he]
      exact h)]
    rw [zero_mul, zero_add]
    rfl
  generalize hg : toHexFixed 32 u = hx at hlen hparse ⊢
  have l1 : (hx.take 8).length = 8 := by rw [List.length_take, hlen]; omega
  have l2 : ((hx.drop 8).take 4).length = 4 := by
    rw [List.length_take, List.length_drop, hlen]; omega
  have l3 : (((hx.drop 8).drop 4).take 4).length = 4 := by
    rw [List.length_take, List.length_drop, List.length_drop, hlen]; omega
  have l4 : ((((hx.drop 8).drop 4).drop 4).take 4).length = 4 := by
    rw [List.length_take, List.length_drop, List.length_drop, List.length_drop, hlen]; omega
  have l5 : ((((hx.drop 8).drop 4).drop 4).drop 4).length = 12 := by
    rw [List.length_drop, List.length_drop, List.length_drop, List.length_drop, hlen]
  rw [List.drop_left' l1]
  dsimp only
  rw [List.take_left' l2, List.drop_left' l2]
  dsimp only
  rw [List.take_left' l3, List.drop_left' l3]
  dsimp only
  rw [List.take_left' l4, List.drop_left' l4]
  dsimp only
  rw [if_pos ⟨by rw [List.take_left' l1]; exact l1, l2, l3, l4, l5⟩]
  rw [List.take_left' l1]
  rw [List.take_append_drop, List.take_append_drop, List.take_append_drop,
    List.take_append_drop]
  exact hparse

/-! ## Decoding the serde views back (the derived Deserialize impls) -/

theorem asNum_num (bound n : Nat) (h : n < bound) : asNum bound (.num n) = some n := by
  show (if n < bound then some n else none) = some n
  rw [if_pos h]

theorem asUuid_uuidJson (u : Uuid) (h : uuidWF u) : asUuid (uuidJson u) = some u := by
  show uuidFromStr (uuidToStr u) = some u
  exact uuidFromStr_uuidToStr u h

theorem asOptStr_optStrJson (o : Option Str) : asOptStr (optStrJson o) = some o := by
  cases o <;> rfl

theorem asByteList_map (data : List Nat) (h : bytesWF data) :
    asByteList (data.map .num) = some data := by
  induction data with
  | nil => rfl
  | cons b bs ih =>
    show asByteList (.num b :: bs.map .num) = some (b :: bs)
    unfold asByteList
    rw [if_pos (h b (List.mem_cons_self b bs))]
    rw [ih (fun x hx => h x (List.mem_cons_of_mem b hx))]

theorem asBytes_bytesJson (data : List Nat) (h : bytesWF data) :
    asBytes (bytesJson data) = some data := by
  show asByteList (data.map .num) = some data
  exact asByteList_map data h

theorem asUuidList_map (us : List Uuid) (h : ∀ u ∈ us, uuidWF u) :
    asUuidList (us.map uuidJson) = some us := by
  induction us with
  | nil => rfl
  | cons u rest ih =>
    show asUuidList (uuidJson u :: rest.map uuidJson) = some (u :: rest)
    unfold asUuidList
    rw [asUuid_uuidJson u (h u (List.mem_cons_self u rest))]
    rw [ih (fun x hx => h x (List.mem_cons_of_mem u hx))]

theorem asTime_obj (a b : Json) :
    asTime (.obj [(k_secs_since_epoch, a), (k_nanos_since_epoch, b)]) =
      (match asNum (2 ^ 64) a with
       | some s =>
         match asNum (2 ^ 32) b with
         | some ns => some (TimeStamp.mk s ns)
         | none => none
       | none => none) := rfl

theorem asTime_timeJson (t : TimeStamp) (h : timeWF t) : asTime (timeJson t) = some t := by
  obtain ⟨hs, hn⟩ := h
  dsimp only [timeJson]
  rw [asTime_obj, asNum_num _ _ hs, asNum_num _ _ hn]

theorem sessionInfoFromJson_obj (a b c d e f : Json) :
    sessionInfoFromJson (.obj [(k_id, a), (k_shell, b), (k_working_directory, c),
        (k_attached_clients, d), (k_created_at, e), (k_last_activity, f)]) =
      (match asUuid a with
       | some sid =>
         match asStr b with
         | some sh =>
           match asOptStr c with
           | some wd =>
             match d with
             | .arr xs =>
               match asUuidList xs with
               | some acs =>
                 match asTime e with
                 | some ca =>
                   match asTime f with
                   | some la => some (SessionInfo.mk sid sh wd acs ca la)
                   | none => none
                 | none => none
               | none => none
             | _ => none
           | none => none
         | none => none
       | none => none) := rfl

theorem sessionInfoFromJson_sessionInfoJson (si : SessionInfo) (h : si.wf) :
    sessionInfoFromJson (sessionInfoJson si) = some si := by
  obtain ⟨h1, _, h3, h4, h5, h6⟩ := h
  dsimp only [sessionInfoJson, uuidListJson]
  rw [sessionInfoFromJson_obj, asUuid_uuidJson _ h1]
  dsimp only
  rw [asOptStr_optStrJson]
  dsimp only
  rw [asUuidList_map _ h4]
  dsimp only
  rw [asTime_timeJson _ h5]
  dsimp only
  rw [asTime_timeJson _ h6]
  rfl

theorem sessionInfoListFromJson_map (sis : List SessionInfo) (h : ∀ si ∈ sis, si.wf) :
    sessionInfoListFromJson (sis.map sessionInfoJson) = some sis := by
  induction sis with
  | nil => rfl
  | cons si rest ih =>
    show sessionInfoListFromJson (sessionInfoJson si :: rest.map sessionInfoJson) =
      some (si :: rest)
    unfold sessionInfoListFromJson
    rw [sessionInfoFromJson_sessionInfoJson si (h si (List.mem_cons_self si rest))]
    rw [ih (fun x hx => h x (List.mem_cons_of_mem si hx))]

/-! Per-variant decode equations for the externally tagged enums, with the
field values left generic. -/

theorem clientMessageFromJson_objRegister (a : Json) :
    clientMessageFromJson (.obj [(k_RegisterClient, .obj [(k_client_id, a)])]) =
      (match asUuid a with
       | some cid => some (.RegisterClient cid)
       | none => none) := rfl

theorem clientMessageFromJson_objCreate (a b c : Json) :
    clientMessageFromJson (.obj [(k_RegisterAndCreateSession,
        .obj [(k_session_id, a), (k_shell, b), (k_working_directory, c)])]) =
      (match asUuid a with
       | some sid =>
         match asStr b with
         | some sh =>
           match asOptStr c with
           | some wd => some (.RegisterAndCreateSession sid sh wd)
           | none => none
         | none => none
       | none => none) := rfl

theorem clientMessageFromJson_objAttach (a b : Json) :
    clientMessageFromJson (.obj [(k_AttachToSession,
        .obj [(k_session_id, a), (k_client_id, b)])]) =
      (match asUuid a with
       | some sid =>
         match asUuid b with
         | some cid => some (.AttachToSession sid cid)
         | none => none
       | none => none) := rfl

theorem clientMessageFromJson_objDetach (a b : Json) :
    clientMessageFromJson (.obj [(k_DetachFromSession,
        .obj [(k_session_id, a), (k_client_id, b)])]) =
      (match asUuid a with
       | some sid =>
         match asUuid b with
         | some cid => some (.DetachFromSession sid cid)
         | none => none
       | none => none) := rfl

theorem clientMessageFromJson_objSend (a b : Json) :
    clientMessageFromJson (.obj [(k_SendInput,
        .obj [(k_session_id, a), (k_data, b)])]) =
      (match asUuid a with
       | some sid =>
         match asBytes b with
         | some data => some (.SendInput sid data)
         | none => none
       | none => none) := rfl

theorem clientMessageFromJson_objResize (a b c : Json) :
    clientMessageFromJson (.obj [(k_ResizeSession,
        .obj [(k_session_id, a), (k_cols, b), (k_rows, c)])]) =
      (match asUuid a with
       | some sid =>
         match asNum (2 ^ 16) b with
         | some cols =>
           match asNum (2 ^ 16) c with
           | some rows => some (.ResizeSession sid cols rows)
           | none => none
         | none => none
       | none => none) := rfl

theorem clientMessageFromJson_objRead (a : Json) :
    clientMessageFromJson (.obj [(k_ReadOutput, .obj [(k_session_id, a)])]) =
      (match asUuid a with
       | some sid => some (.ReadOutput sid)
       | none => none) := rfl

theorem clientMessageFromJson_objTerminate (a : Json) :
    clientMessageFromJson (.obj [(k_TerminateSession, .obj [(k_session_id, a)])]) =
      (match asUuid a with
       | some sid => some (.TerminateSession sid)
       | none => none) := rfl

theorem clientMessageFromJson_objDisconnect (a : Json) :
    clientMessageFromJson (.obj [(k_Disconnect, .obj [(k_client_id, a)])]) =
      (match asUuid a with
       | some cid => some (.Disconnect cid)
       | none => none) := rfl

theorem clientMessageFromJson_clientMessageJson (m : ClientMessage) (h : m.wf) :
    clientMessageFromJson (clientMessageJson m) = some m := by
  cases m with
  | RegisterClient cid =>
    dsimp only [clientMessageJson]
    rw [clientMessageFromJson_objRegister, asUuid_uuidJson _ h]
  | RegisterAndCreateSession sid sh wd =>
    obtain ⟨h1, _, _⟩ := h
    dsimp only [clientMessageJson]
    rw [clientMessageFromJson_objCreate, asUuid_uuidJson _ h1]
    dsimp only
    rw [asOptStr_optStrJson]
    rfl
  | AttachToSession sid cid =>
    obtain ⟨h1, h2⟩ := h
    dsimp only [clientMessageJson]
    rw [clientMessageFromJson_objAttach, asUuid_uuidJson _ h1]
    dsimp only
    rw [asUuid_uuidJson _ h2]
  | DetachFromSession sid cid =>
    obtain ⟨h1, h2⟩ := h
    dsimp only [clientMessageJson]
    rw [clientMessageFromJson_objDetach, asUuid_uuidJson _ h1]
    dsimp only
    rw [asUuid_uuidJson _ h2]
  | SendInput sid data =>
    obtain ⟨h1, h2⟩ := h
    dsimp only [clientMessageJson]
    rw [clientMessageFromJson_objSend, asUuid_uuidJson _ h1]
    dsimp only
    rw [asBytes_bytesJson _ h2]
  | ResizeSession sid cols rows =>
    obtain ⟨h1, h2, h3⟩ := h
    dsimp only [clientMessageJson]
    rw [clientMessageFromJson_objResize, asUuid_uuidJson _ h1]
    dsimp only
    rw [asNum_num _ _ h2, asNum_num _ _ h3]
  | ReadOutput sid =>
    dsimp only [clientMessageJson]
    rw [clientMessageFromJson_objRead, asUuid_uuidJson _ h]
  | ListSessions => rfl
  | TerminateSession sid =>
    dsimp only [clientMessageJson]
    rw [clientMessageFromJson_objTerminate, asUuid_uuidJson _ h]
  | Disconnect cid =>
    dsimp only [clientMessageJson]
    rw [clientMessageFromJson_objDisconnect, asUuid_uuidJson _ h]

theorem daemonMessageFromJson_objRegistered (a : Json) :
    daemonMessageFromJson (.obj [(k_ClientRegistered, .obj [(k_client_id, a)])]) =
      (match asUuid a with
       | some cid => some (.ClientRegistered cid)
       | none => none) := rfl

theorem daemonMessageFromJson_objCreated (a : Json) :
    daemonMessageFromJson (.obj [(k_SessionCreated, .obj [(k_session_id, a)])]) =
      (match asUuid a with
       | some sid => some (.SessionCreated sid)
       | none => none) := rfl

theorem daemonMessageFromJson_objOutput (a b : Json) :
    daemonMessageFromJson (.obj [(k_SessionOutput,
        .obj [(k_session_id, a), (k_data, b)])]) =
      (match asUuid a with
       | some sid =>
         match asBytes b with
         | some data => some (.SessionOutput sid data)
         | none => none
       | none => none) := rfl

theorem daemonMessageFromJson_objTerminated (a : Json) :
    daemonMessageFromJson (.obj [(k_SessionTerminated, .obj [(k_session_id, a)])]) =
      (match asUuid a with
       | some sid => some (.SessionTerminated sid)
       | none => none) := rfl

theorem daemonMessageFromJson_objList (a : Json) :
    daemonMessageFromJson (.obj [(k_SessionList, .obj [(k_sessions, a)])]) =
      (match a with
       | .arr xs =>
         match sessionInfoListFromJson xs with
         | some sis => some (.SessionList sis)
         | none => none
       | _ => none) := rfl

theorem daemonMessageFromJson_objError (a : Json) :
    daemonMessageFromJson (.obj [(k_Error, .obj [(k_message, a)])]) =
      (match asStr a with
       | some msg => some (.Error msg)
       | none => none) := rfl

theorem daemonMessageFromJson_daemonMessageJson (m : DaemonMessage) (h : m.wf) :
    daemonMessageFromJson (daemonMessageJson m) = some m := by
  cases m with
  | ClientRegistered cid =>
    dsimp only [daemonMessageJson]
    rw [daemonMessageFromJson_objRegistered, asUuid_uuidJson _ h]
  | SessionCreated sid =>
    dsimp only [daemonMessageJson]
    rw [daemonMessageFromJson_objCreated, asUuid_uuidJson _ h]
  | SessionOutput sid data =>
    obtain ⟨h1, h2⟩ := h
    dsimp only [daemonMessageJson]
    rw [daemonMessageFromJson_objOutput, asUuid_uuidJson _ h1]
    dsimp only
    rw [asBytes_bytesJson _ h2]
  | SessionTerminated sid =>
    dsimp only [daemonMessageJson]
    rw [daemonMessageFromJson_objTerminated, asUuid_uuidJson _ h]
  | SessionList sessions =>
    dsimp only [daemonMessageJson, sessionInfoListJson]
    rw [daemonMessageFromJson_objList]
    dsimp only
    rw [sessionInfoListFromJson_map _ h]
  | Error message => rfl

theorem jsonMessageFromJson_objClient (v : Json) :
    jsonMessageFromJson (.obj [(k_Client, v)]) =
      (match clientMessageFromJson v with
       | some m => some (.Client m)
       | none => none) := rfl

theorem jsonMessageFromJson_objDaemon (v : Json) :
    jsonMessageFromJson (.obj [(k_Daemon, v)]) =
      (match daemonMessageFromJson v with
       | some m => some (.Daemon m)
       | none => none) := rfl

theorem jsonMessageFromJson_jsonMessageJson (m : JsonMessage) (h : m.wf) :
    jsonMessageFromJson (jsonMessageJson m) = some m := by
  cases m with
  | Client cm =>
    dsimp only [jsonMessageJson]
    rw [jsonMessageFromJson_objClient, clientMessageFromJson_clientMessageJson cm h]
  | Daemon dm =>
    dsimp only [jsonMessageJson]
    rw [jsonMessageFromJson_objDaemon, daemonMessageFromJson_daemonMessageJson dm h]

/-! ## Scalar-validity of the serialized messages -/

theorem wfElems_of_forall (vs : List Json) :
    ∀ v, wfVal v → (∀ w ∈ vs, wfVal w) → wfElems v vs := by
  induction vs with
  | nil =>
    intro v hv _
    simpa [wfElems] using hv
  | cons w ws ih =>
    intro v hv hall
    rw [show wfElems v (w :: ws) = (wfVal v ∧ wfElems w ws) from by simp [wfElems]]
    exact ⟨hv, ih w (hall w (List.mem_cons_self w ws))
      (fun x hx => hall x (List.mem_cons_of_mem w hx))⟩

theorem wfVal_arr (l : List Json) (h : ∀ w ∈ l, wfVal w) : wfVal (.arr l) := by
  cases l with
  | nil => simp [wfVal]
  | cons v vs =>
    rw [show wfVal (.arr (v :: vs)) = wfElems v vs from by simp [wfVal]]
    exact wfElems_of_forall vs v (h v (List.mem_cons_self v vs))
      (fun x hx => h x (List.mem_cons_of_mem v hx))

theorem wfMembers_of_forall (kvs : List (Str × Json)) :
    ∀ kv, (ValidStr kv.1 ∧ wfVal kv.2) → (∀ p ∈ kvs, ValidStr p.1 ∧ wfVal p.2) →
      wfMembers kv kvs := by
  induction kvs with
  | nil =>
    intro kv hkv _
    obtain ⟨k, v⟩ := kv
    rw [show wfMembers (k, v) [] = (ValidStr k ∧ wfVal v) from by simp [wfMembers]]
    exact hkv
  | cons p ps ih =>
    intro kv hkv hall
    obtain ⟨k, v⟩ := kv
    obtain ⟨pk, pv⟩ := p
    rw [show wfMembers (k, v) ((pk, pv) :: ps) =
        ((ValidStr k ∧ wfVal v) ∧ wfMembers (pk, pv) ps) from by simp [wfMembers]]
    exact ⟨hkv, ih (pk, pv) (hall (pk, pv) (List.mem_cons_self _ _))
      (fun x hx => hall x (List.mem_cons_of_mem _ hx))⟩

theorem wfVal_obj (l : List (Str × Json)) (h : ∀ p ∈ l, ValidStr p.1 ∧ wfVal p.2) :
    wfVal (.obj l) := by
  cases l with
  | nil => simp [wfVal]
  | cons kv kvs =>
    rw [show wfVal (.obj (kv :: kvs)) = wfMembers kv kvs from by simp [wfVal]]
    exact wfMembers_of_forall kvs kv (h kv (List.mem_cons_self kv kvs))
      (fun x hx => h x (List.mem_cons_of_mem kv hx))

theorem wfVal_str (s : Str) (h : ValidStr s) : wfVal (.str s) := by
  simpa [wfVal] using h

theorem wfVal_num (n : Nat) : wfVal (.num n) := by
  simp [wfVal]

theorem wfVal_uuidJson (u : Uuid) : wfVal (uuidJson u) :=
  wfVal_str _ (uuidToStr_valid u)

theorem wfVal_timeJson (t : TimeStamp) : wfVal (timeJson t) := by
  apply wfVal_obj
  intro p hp
  simp only [timeJson, List.mem_cons, List.not_mem_nil, or_false] at hp
  rcases hp with h | h <;> subst h <;> dsimp only
  · exact ⟨by decide, wfVal_num _⟩
  · exact ⟨by decide, wfVal_num _⟩

theorem wfVal_bytesJson (data : List Nat) : wfVal (bytesJson data) := by
  show wfVal (.arr (data.map Json.num))
  apply wfVal_arr
  intro w hw
  rcases List.mem_map.mp hw with ⟨b, _, rfl⟩
  exact wfVal_num b

theorem wfVal_optStrJson (o : Option Str) (h : optStrWF o) : wfVal (optStrJson o) := by
  cases o with
  | none => simp [optStrJson, wfVal]
  | some s => exact wfVal_str s h

theorem wfVal_uuidListJson (us : List Uuid) : wfVal (uuidListJson us) := by
  show wfVal (.arr (us.map uuidJson))
  apply wfVal_arr
  intro w hw
  rcases List.mem_map.mp hw with ⟨u, _, rfl⟩
  exact wfVal_uuidJson u

theorem wfVal_sessionInfoJson (si : SessionInfo) (h : si.wf) : wfVal (sessionInfoJson si) := by
  obtain ⟨h1, h2, h3, h4, h5, h6⟩ := h
  apply wfVal_obj
  intro p hp
  simp only [sessionInfoJson, List.mem_cons, List.not_mem_nil, or_false] at hp
  rcases hp with h | h | h | h | h | h <;> subst h <;> dsimp only
  · exact ⟨by decide, wfVal_uuidJson _⟩
  · exact ⟨by decide, wfVal_str _ h2⟩
  · exact ⟨by decide, wfVal_optStrJson _ h3⟩
  · exact ⟨by decide, wfVal_uuidListJson _⟩
  · exact ⟨by decide, wfVal_timeJson _⟩
  · exact ⟨by decide, wfVal_timeJson _⟩

theorem wfVal_sessionInfoListJson (sis : List SessionInfo) (h : ∀ si ∈ sis, si.wf) :
    wfVal (sessionInfoListJson sis) := by
  show wfVal (.arr (sis.map sessionInfoJson))
  apply wfVal_arr
  intro w hw
  rcases List.mem_map.mp hw with ⟨si, hsi, rfl⟩
  exact wfVal_sessionInfoJson si (h si hsi)

theorem wfVal_clientMessageJson (m : ClientMessage) (h : m.wf) :
    wfVal (clientMessageJson m) := by
  cases m with
  | RegisterClient cid =>
    apply wfVal_obj
    intro p hp
    simp only [clientMessageJson, List.mem_cons, List.not_mem_nil, or_false] at hp
    subst hp
    dsimp only
    refine ⟨by decide, wfVal_obj _ ?_⟩
    intro q hq
    simp only [List.mem_cons, List.not_mem_nil, or_false] at hq
    subst hq
    dsimp only
    exact ⟨by decide, wfVal_uuidJson _⟩
  | RegisterAndCreateSession sid sh wd =>
    obtain ⟨h1, h2, h3⟩ := h
    apply wfVal_obj
    intro p hp
    simp only [clientMessageJson, List.mem_cons, List.not_mem_nil, or_false] at hp
    subst hp
    dsimp only
    refine ⟨by decide, wfVal_obj _ ?_⟩
    intro q hq
    simp only [List.mem_cons, List.not_mem_nil, or_false] at hq
    rcases hq with h | h | h <;> subst h <;> dsimp only
    · exact ⟨by decide, wfVal_uuidJson _⟩
    · exact ⟨by decide, wfVal_str _ h2⟩
    · exact ⟨by decide, wfVal_optStrJson _ h3⟩
  | AttachToSession sid cid =>
    apply wfVal_obj
    intro p hp
    simp only [clientMessageJson, List.mem_cons, List.not_mem_nil, or_false] at hp
    subst hp
    dsimp only
    refine ⟨by decide, wfVal_obj _ ?_⟩
    intro q hq
    simp only [List.mem_cons, List.not_mem_nil, or_false] at hq
    rcases hq with h | h <;> subst h <;> dsimp only
    · exact ⟨by decide, wfVal_uuidJson _⟩
    · exact ⟨by decide, wfVal_uuidJson _⟩
  | DetachFromSession sid cid =>
    apply wfVal_obj
    intro p hp
    simp only [clientMessageJson, List.mem_cons, List.not_mem_nil, or_false] at hp
    subst hp
    dsimp only
    refine ⟨by decide, wfVal_obj _ ?_⟩
    intro q hq
    simp only [List.mem_cons, List.not_mem_nil, or_false] at hq
    rcases hq with h | h <;> subst h <;> dsimp only
    · exact ⟨by decide, wfVal_uuidJson _⟩
    · exact ⟨by decide, wfVal_uuidJson _⟩
  | SendInput sid data =>
    apply wfVal_obj
    intro p hp
    simp only [clientMessageJson, List.mem_cons, List.not_mem_nil, or_false] at hp
    subst hp
    dsimp only
    refine ⟨by decide, wfVal_obj _ ?_⟩
    intro q hq
    simp only [List.mem_cons, List.not_mem_nil, or_false] at hq
    rcases hq with h | h <;> subst h <;> dsimp only
    · exact ⟨by decide, wfVal_uuidJson _⟩
    · exact ⟨by decide, wfVal_bytesJson _⟩
  | ResizeSession sid cols rows =>
    apply wfVal_obj
    intro p hp
    simp only [clientMessageJson, List.mem_cons, List.not_mem_nil, or_false] at hp
    subst hp
    dsimp only
    refine ⟨by decide, wfVal_obj _ ?_⟩
    intro q hq
    simp only [List.mem_cons, List.not_mem_nil, or_false] at hq
    rcases hq with h | h | h <;> subst h <;> dsimp only
    · exact ⟨by decide, wfVal_uuidJson _⟩
    · exact ⟨by decide, wfVal_num _⟩
    · exact ⟨by decide, wfVal_num _⟩
  | ReadOutput sid =>
    apply wfVal_obj
    intro p hp
    simp only [clientMessageJson, List.mem_cons, List.not_mem_nil, or_false] at hp
    subst hp
    dsimp only
    refine ⟨by decide, wfVal_obj _ ?_⟩
    intro q hq
    simp only [List.mem_cons, List.not_mem_nil, or_false] at hq
    subst hq
    dsimp only
    exact ⟨by decide, wfVal_uuidJson _⟩
  | ListSessions => exact wfVal_str _ (by decide)
  | TerminateSession sid =>
    apply wfVal_obj
    intro p hp
    simp only [clientMessageJson, List.mem_cons, List.not_mem_nil, or_false] at hp
    subst hp
    dsimp only
    refine ⟨by decide, wfVal_obj _ ?_⟩
    intro q hq
    simp only [List.mem_cons, List.not_mem_nil, or_false] at hq
    subst hq
    dsimp only
    exact ⟨by decide, wfVal_uuidJson _⟩
  | Disconnect cid =>
    apply wfVal_obj
    intro p hp
    simp only [clientMessageJson, List.mem_cons, List.not_mem_nil, or_false] at hp
    subst hp
    dsimp only
    refine ⟨by decide, wfVal_obj _ ?_⟩
    intro q hq
    simp only [List.mem_cons, List.not_mem_nil, or_false] at hq
    subst hq
    dsimp only
    exact ⟨by decide, wfVal_uuidJson _⟩

theorem wfVal_daemonMessageJson (m : DaemonMessage) (h : m.wf) :
    wfVal (daemonMessageJson m) := by
  cases m with
  | ClientRegistered cid =>
    apply wfVal_obj
    intro p hp
    simp only [daemonMessageJson, List.mem_cons, List.not_mem_nil, or_false] at hp
    subst hp
    dsimp only
    refine ⟨by decide, wfVal_obj _ ?_⟩
    intro q hq
    simp only [List.mem_cons, List.not_mem_nil, or_false] at hq
    subst hq
    dsimp only
    exact ⟨by decide, wfVal_uuidJson _⟩
  | SessionCreated sid =>
    apply wfVal_obj
    intro p hp
    simp only [daemonMessageJson, List.mem_cons, List.not_mem_nil, or_false] at hp
    subst hp
    dsimp only
    refine ⟨by decide, wfVal_obj _ ?_⟩
    intro q hq
    simp only [List.mem_cons, List.not_mem_nil, or_false] at hq
    subst hq
    dsimp only
    exact ⟨by decide, wfVal_uuidJson _⟩
  | SessionOutput sid data =>
    apply wfVal_obj
    intro p hp
    simp only [daemonMessageJson, List.mem_cons, List.not_mem_nil, or_false] at hp
    subst hp
    dsimp only
    refine ⟨by decide, wfVal_obj _ ?_⟩
    intro q hq
    simp only [List.mem_cons, List.not_mem_nil, or_false] at hq
    rcases hq with h | h <;> subst h <;> dsimp only
    · exact ⟨by decide, wfVal_uuidJson _⟩
    · exact ⟨by decide, wfVal_bytesJson _⟩
  | SessionTerminated sid =>
    apply wfVal_obj
    intro p hp
    simp only [daemonMessageJson, List.mem_cons, List.not_mem_nil, or_false] at hp
    subst hp
    dsimp only
    refine ⟨by decide, wfVal_obj _ ?_⟩
    intro q hq
    simp only [List.mem_cons, List.not_mem_nil, or_false] at hq
    subst hq
    dsimp only
    exact ⟨by decide, wfVal_uuidJson _⟩
  | SessionList sessions =>
    apply wfVal_obj
    intro p hp
    simp only [daemonMessageJson, List.mem_cons, List.not_mem_nil, or_false] at hp
    subst hp
    dsimp only
    refine ⟨by decide, wfVal_obj _ ?_⟩
    intro q hq
    simp only [List.mem_cons, List.not_mem_nil, or_false] at hq
    subst hq
    dsimp only
    exact ⟨by decide, wfVal_sessionInfoListJson _ h⟩
  | Error message =>
    apply wfVal_obj
    intro p hp
    simp only [daemonMessageJson, List.mem_cons, List.not_mem_nil, or_false] at hp
    subst hp
    dsimp only
    refine ⟨by decide, wfVal_obj _ ?_⟩
    intro q hq
    simp only [List.mem_cons, List.not_mem_nil, or_false] at hq
    subst hq
    dsimp only
    exact ⟨by decide, wfVal_str _ h⟩

theorem wfVal_jsonMessageJson (m : JsonMessage) (h : m.wf) : wfVal (jsonMessageJson m) := by
  cases m with
  | Client cm =>
    apply wfVal_obj
    intro p hp
    simp only [jsonMessageJson, List.mem_cons, List.not_mem_nil, or_false] at hp
    subst hp
    dsimp only
    exact ⟨by decide, wfVal_clientMessageJson cm h⟩
  | Daemon dm =>
    apply wfVal_obj
    intro p hp
    simp only [jsonMessageJson, List.mem_cons, List.not_mem_nil, or_false] at hp
    subst hp
    dsimp only
    exact ⟨by decide, wfVal_daemonMessageJson dm h⟩

/-! ## Framing round trip and the frame-size limit -/

theorem from_bytes_tag0 (p : List Nat) :
    from_bytes (0 :: p) =
      (match utf8Decode p with
       | some chars =>
         match parseVal chars.length chars with
         | some (v, []) =>
           match jsonMessageFromJson v with
           | some jm => .ok (.Json jm)
           | none => .error "unknown variant"
         | _ => .error "invalid JSON"
       | none => .error "invalid UTF-8") := rfl

theorem from_bytes_tag1 (p : List Nat) : from_bytes (1 :: p) = .ok (.Bytes p) := rfl

theorem numGuard_nil (v : Json) : numGuard v [] := by
  cases v <;> exact trivial

theorem parseVal_renderVal (v : Json) :
    parseVal (renderVal v).length (renderVal v) = some (v, []) := by
  have h := (parse_render_all (renderVal v).length).1 v []
    (fuelVal_le_renderLen v) (numGuard_nil v)
  rw [List.append_nil] at h
  exact h

/-- C2: serializing a well-formed protocol message with `to_bytes` and
deserializing the result with the 4-byte big-endian length prefix stripped
with `from_bytes` returns exactly the original message, for both the JSON
control frame (tag 0) and the raw-bytes frame (tag 1). -/
theorem c2_roundtrip (m : ProtocolMessage) (h : m.wf) :
    from_bytes ((to_bytes m).drop 4) = .ok m := by
  cases m with
  | Bytes data =>
    show from_bytes ((toBE4 (1 :: data).length ++ (1 :: data)).drop 4) = .ok (.Bytes data)
    rw [drop4_toBE4, from_bytes_tag1]
  | Json jm =>
    show from_bytes ((toBE4 (0 :: utf8Encode (renderVal (jsonMessageJson jm))).length ++
        (0 :: utf8Encode (renderVal (jsonMessageJson jm)))).drop 4) = .ok (.Json jm)
    rw [drop4_toBE4, from_bytes_tag0,
      utf8Decode_encode _ (renderVal_valid _ (wfVal_jsonMessageJson jm h))]
    dsimp only
    rw [parseVal_renderVal]
    dsimp only
    rw [jsonMessageFromJson_jsonMessageJson jm h]

/-- C2 witness: the round trip at the concrete message `ListSessions`. -/
theorem c2_roundtrip_witness :
    (ProtocolMessage.Json (.Client .ListSessions)).wf ∧
    from_bytes ((to_bytes (.Json (.Client .ListSessions))).drop 4) =
      .ok (.Json (.Client .ListSessions)) :=
  ⟨by decide, c2_roundtrip _ (by decide)⟩

/-- C3 counterexample: a frame whose payload is exactly 1 MiB (tag byte `1`
followed by 2^20 raw bytes, declared length 2^20 + 1) is REJECTED with
"Message too large", because the declared `message_length` counts the type
tag as well as the payload and the check is `message_length > 1 MiB`; the
spec says a frame with a 1 MiB payload is accepted. -/
theorem c3_counterexample :
    read_from_stream (toBE4 1048577 ++ 1 :: zeros 1048576) =
      .error "Message too large" := by
  have h1 : (toBE4 1048577 ++ 1 :: zeros 1048576).length = 4 + 1048577 := by
    rw [List.length_append, length_toBE4, List.length_cons, length_zeros]
  unfold read_from_stream
  rw [if_neg (by rw [h1]; omega)]
  dsimp only
  rw [take4_toBE4, beU32_toBE4 1048577 (by omega), if_pos (by decide)]

/-- C3 (amended): the frame limit is off by one with respect to the payload:
a raw-bytes frame with payload `p` is accepted whenever `|p| + 1 ≤ 1 MiB`
(payload at most 2^20 − 1 bytes), and rejected as "Message too large"
whenever `|p| ≥ 1 MiB` (the declared length `|p| + 1` includes the type
tag byte and must not exceed 2^20). -/
theorem c3_frame_limit (p : List Nat) :
    (p.length + 1 ≤ MAX_MESSAGE_LENGTH →
      read_from_stream (toBE4 (p.length + 1) ++ 1 :: p) = .ok (.Bytes p)) ∧
    (MAX_MESSAGE_LENGTH ≤ p.length → p.length + 1 < 4294967296 →
      read_from_stream (toBE4 (p.length + 1) ++ 1 :: p) =
        .error "Message too large") := by
  have h1 : (toBE4 (p.length + 1) ++ 1 :: p).length = 4 + (p.length + 1) := by
    rw [List.length_append, length_toBE4, List.length_cons]
  have hmax : MAX_MESSAGE_LENGTH = 1048576 := rfl
  constructor
  · intro hle
    have hlt : p.length + 1 < 4294967296 := by omega
    unfold read_from_stream
    rw [if_neg (by rw [h1]; omega)]
    dsimp only
    rw [take4_toBE4, beU32_toBE4 _ hlt]
    rw [if_neg (by omega)]
    rw [drop4_toBE4]
    rw [if_neg (by rw [List.length_cons]; omega)]
    rw [List.take_of_length_le (by rw [List.length_cons])]
    rw [from_bytes_tag1]
  · intro hge hlt
    unfold read_from_stream
    rw [if_neg (by rw [h1]; omega)]
    dsimp only
    rw [take4_toBE4, beU32_toBE4 _ hlt]
    rw [if_pos (by omega)]

/-- C3 witness: a payload of 2^20 − 1 zero bytes is accepted and a payload
of exactly 2^20 zero bytes is rejected. -/
theorem c3_frame_limit_witness :
    ((zeros 1048575).length + 1 ≤ MAX_MESSAGE_LENGTH ∧
      read_from_stream (toBE4 ((zeros 1048575).length + 1) ++ 1 :: zeros 1048575) =
        .ok (.Bytes (zeros 1048575))) ∧
    (MAX_MESSAGE_LENGTH ≤ (zeros 1048576).length ∧
      read_from_stream (toBE4 ((zeros 1048576).length + 1) ++ 1 :: zeros 1048576) =
        .error "Message too large") :=
  ⟨⟨by rw [length_zeros]; decide,
    (c3_frame_limit (zeros 1048575)).1 (by rw [length_zeros]; decide)⟩,
   ⟨by rw [length_zeros]; decide,
    (c3_frame_limit (zeros 1048576)).2 (by rw [length_zeros]; decide)
      (by rw [length_zeros]; decide)⟩⟩

/-- Any control frame whose payload renders a scalar-valid JSON value that
does not deserialize to a known message variant drives the read loop to
close the connection with the daemon state unchanged. -/
theorem unknown_variant_step_closes (v : Json) (d : PtyDaemon) (cid : Uuid) (now : Nat)
    (o : Oracle) (hwf : wfVal v) (hunk : jsonMessageFromJson v = none) :
    connection_loop_step (from_bytes (0 :: utf8Encode (renderVal v))) d cid now o =
      (d, .close) := by
  rw [from_bytes_tag0, utf8Decode_encode _ (renderVal_valid _ hwf)]
  dsimp only
  rw [parseVal_renderVal]
  dsimp only
  rw [hunk]
  rfl

/-- C8 counterexample: the control frame carrying the JSON text
`{"Client":"Bogus"}` (valid UTF-8, valid JSON, unknown `ClientMessage`
variant) makes the read loop CLOSE the connection: `from_bytes` returns the
unknown-variant error, the loop's error branch breaks, and no `Error` reply
is produced — the spec instead requires an `Error` reply with the
connection kept open. -/
theorem c8_counterexample :
    connection_loop_step (from_bytes (0 :: utf8Encode (renderVal
        (.obj [(k_Client, .str [66, 111, 103, 117, 115])]))))
      PtyDaemon.initial 0 0 ⟨true, true, true, none⟩ =
      (PtyDaemon.initial, .close) := by
  have hwf : wfVal (Json.obj [(k_Client, Json.str [66, 111, 103, 117, 115])]) := by
    simp only [wfVal, wfMembers]
    decide
  exact unknown_variant_step_closes _ _ _ _ _ hwf rfl

/-- C8 (amended): a control frame whose payload is valid UTF-8 and valid
JSON but does not deserialize to any known message variant causes the
connection loop to break and close the connection, with the daemon state
unchanged and no reply of any kind (in particular no `Error` reply). -/
theorem c8_unknown_variant_closes (v : Json) (d : PtyDaemon) (cid : Uuid) (now : Nat)
    (o : Oracle) (hwf : wfVal v) (hunk : jsonMessageFromJson v = none) :
    connection_loop_step (from_bytes (0 :: utf8Encode (renderVal v))) d cid now o =
      (d, .close) :=
  unknown_variant_step_closes v d cid now o hwf hunk

/-- C8 witness: the amended theorem applied to the unknown unit variant
`"X"` inside a `Client` wrapper, on the initial daemon state. -/
theorem c8_unknown_variant_closes_witness :
    wfVal (Json.obj [(k_Client, Json.str [88])]) ∧
    jsonMessageFromJson (Json.obj [(k_Client, Json.str [88])]) = none ∧
    connection_loop_step (from_bytes (0 :: utf8Encode (renderVal
        (Json.obj [(k_Client, Json.str [88])]))))
      PtyDaemon.initial 1 2 ⟨false, false, false, none⟩ =
      (PtyDaemon.initial, .close) := by
  have hwf : wfVal (Json.obj [(k_Client, Json.str [88])]) := by
    simp only [wfVal, wfMembers]
    decide
  exact ⟨hwf, rfl, c8_unknown_variant_closes _ _ _ _ _ hwf rfl⟩
